import Mathlib

/-!
Verification of the Bjorn action scheduler (orchestrator.py) and the
nmap vulnerability scanner (actions/nmap_vuln_scanner.py).

The Python sources are shallowly embedded as executable Lean functions.
Statuses, rows and scan text are modelled as `String`; Python dict rows
become association lists; the mutable `shared_data` configuration becomes
an explicit `Config` record; `datetime` values become a `DT` record of
calendar fields compared through a seconds count; action and scan
executions become oracles passed in as functions.  The global
`orchestrator_should_exit` / `manual_mode` flags model asynchronous
interruption and are taken to be false for a whole cycle.
-/

namespace Bjorn

/-- Python whitespace class, as matched by the `\s` regex class and by
`str.strip()` on ASCII text. -/
def isPyWs (c : Char) : Bool :=
  c = ' ' || c = '\t' || c = '\n' || c = '\r' || c = '\x0b' || c = '\x0c'

/-- Python `\w` word character, for the ASCII text the scanner handles. -/
def isWordChar (c : Char) : Bool := c.isAlphanum || c = '_'

/-- Kernel-friendly list prefix test over characters. -/
def chPrefix : List Char → List Char → Bool
  | [], _ => true
  | _ :: _, [] => false
  | c :: cs, d :: ds => c = d && chPrefix cs ds

/-- Substring containment on character lists. -/
def containsSubL (needle : List Char) : List Char → Bool
  | [] => chPrefix needle []
  | c :: rest => chPrefix needle (c :: rest) || containsSubL needle rest

/-- Python `needle in hay` substring test. -/
def containsSub (needle hay : String) : Bool := containsSubL needle.data hay.data

/-- Python `s.startswith(pre)`. -/
def pyStartsWith (s pre : String) : Bool := chPrefix pre.data s.data

/-- Python `str.strip()`: drop leading and trailing whitespace. -/
def pyStrip (s : String) : String :=
  ⟨((s.data.dropWhile isPyWs).reverse.dropWhile isPyWs).reverse⟩

/-- Helper for `pySplitCh`: split a character list at a separator. -/
def pySplitChL (sep : Char) : List Char → List (List Char)
  | [] => [[]]
  | c :: rest =>
    let r := pySplitChL sep rest
    if c = sep then [] :: r
    else match r with
      | h :: t => (c :: h) :: t
      | [] => [[c]]

/-- Python `str.split(sep)` for a one-character separator. -/
def pySplitCh (sep : Char) (s : String) : List String :=
  (pySplitChL sep s.data).map (fun l => ⟨l⟩)

/-- Helper for `pySplitSemiSpace`. -/
def pySplitSemiSpaceL : List Char → List (List Char)
  | [] => [[]]
  | [c] => [[c]]
  | c1 :: c2 :: rest =>
    if c1 = ';' ∧ c2 = ' ' then [] :: pySplitSemiSpaceL rest
    else match pySplitSemiSpaceL (c2 :: rest) with
      | h :: t => (c1 :: h) :: t
      | [] => [[c1]]

/-- Python `str.split("; ")`, the separator used for vulnerability labels. -/
def pySplitSemiSpace (s : String) : List String :=
  (pySplitSemiSpaceL s.data).map (fun l => ⟨l⟩)

/-- Python `str.splitlines()` on text whose line terminator is `\n`. -/
def pySplitlines (s : String) : List String :=
  match s.data with
  | [] => []
  | _ =>
    let ps := pySplitCh '\n' s
    if ps.getLast? = some "" then ps.dropLast else ps

/-- Digits of a decimal numeral, or `none` when some character is not a digit. -/
def digitsToNat? : List Char → Option Nat
  | [] => none
  | l => go l 0
where
  go : List Char → Nat → Option Nat
    | [], acc => some acc
    | c :: rest, acc =>
      if c.isDigit then go rest (acc * 10 + (c.toNat - 48)) else none

/-- Python `int(s)` on the strings the scheduler stores: an optional leading
minus sign followed by decimal digits (surrounding whitespace never occurs
in stored statuses and is not modelled). -/
def pyInt? (s : String) : Option Int :=
  match s.data with
  | '-' :: rest => (digitsToNat? rest).map (fun n => -(n : Int))
  | l => (digitsToNat? l).map (fun n => (n : Int))

/-- Python `"sep".join(l)`. -/
def joinSep (sep : String) : List String → String
  | [] => ""
  | [x] => x
  | x :: rest => x ++ sep ++ joinSep sep rest

/-- Code-point lexicographic order on character lists, as Python compares
strings. -/
def lexLe : List Char → List Char → Bool
  | [], _ => true
  | _ :: _, [] => false
  | c :: r, d :: s =>
    if c.toNat < d.toNat then true
    else if d.toNat < c.toNat then false
    else lexLe r s

/-- Ordered insertion for `sortStrings`. -/
def sortInsert (x : String) : List String → List String
  | [] => [x]
  | y :: rest => if lexLe x.data y.data then x :: y :: rest else y :: sortInsert x rest

/-- Python `sorted` on a list of strings. -/
def sortStrings : List String → List String
  | [] => []
  | x :: rest => sortInsert x (sortStrings rest)

/-- Python set insertion, modelled on a duplicate-free list. -/
def setAdd (l : List String) (x : String) : List String :=
  if l.contains x then l else l ++ [x]

/-! ### Date and time

`datetime` values are modelled by their calendar fields.  The scheduler
formats them with `strftime("%Y%m%d_%H%M%S")`, parses stored timestamps
with `strptime(..., "%Y%m%d_%H%M%S")`, and compares
`datetime.now() < t + timedelta(seconds=d)`; for valid calendar values the
comparison agrees with comparing the absolute second counts below. -/

/-- Gregorian leap-year test, as `datetime` uses. -/
def isLeapYear (y : Nat) : Bool := (y % 4 = 0 && y % 100 ≠ 0) || y % 400 = 0

/-- Days in a month of a given year. -/
def daysInMonth (y m : Nat) : Nat :=
  if m = 2 then (if isLeapYear y then 29 else 28)
  else if m = 4 ∨ m = 6 ∨ m = 9 ∨ m = 11 then 30
  else 31

/-- Days in the months of year `y` strictly before month `m`. -/
def daysBeforeMonth (y : Nat) : Nat → Nat
  | 0 => 0
  | m + 1 => daysBeforeMonth y m + (if m = 0 then 0 else daysInMonth y m)

/-- Days in the years strictly before year `y` (proleptic Gregorian,
counting from year 1). -/
def daysBeforeYear (y : Nat) : Nat :=
  (y - 1) * 365 + (y - 1) / 4 - (y - 1) / 100 + (y - 1) / 400

/-- A `datetime` value. -/
structure DT where
  year : Nat
  month : Nat
  day : Nat
  hour : Nat
  minute : Nat
  second : Nat
deriving Repr, DecidableEq

/-- Validity exactly as the `datetime` constructor checks it. -/
def DT.valid (t : DT) : Bool :=
  1 ≤ t.year && t.year ≤ 9999 && 1 ≤ t.month && t.month ≤ 12 &&
  1 ≤ t.day && t.day ≤ daysInMonth t.year t.month &&
  t.hour ≤ 23 && t.minute ≤ 59 && t.second ≤ 59

/-- Absolute second count of a `datetime`; on valid values, `datetime`
comparison agrees with comparing these counts. -/
def DT.secs (t : DT) : Nat :=
  (daysBeforeYear t.year + daysBeforeMonth t.year t.month + (t.day - 1)) * 86400
    + t.hour * 3600 + t.minute * 60 + t.second

/-- Zero-pad a number to two digits, as the `%m%d%H%M%S` directives print. -/
def pad2 (n : Nat) : String := if n < 10 then "0" ++ Nat.repr n else Nat.repr n

/-- Zero-pad a number to four digits, as the `%Y` directive prints. -/
def pad4 (n : Nat) : String :=
  (if n < 10 then "000" else if n < 100 then "00" else if n < 1000 then "0" else "")
    ++ Nat.repr n

/-- `strftime("%Y%m%d_%H%M%S")`. -/
def DT.fmt (t : DT) : String :=
  pad4 t.year ++ pad2 t.month ++ pad2 t.day ++ "_" ++
    pad2 t.hour ++ pad2 t.minute ++ pad2 t.second

/-- Read exactly `k` digits from the front of a character list. -/
def readDigits : Nat → List Char → Option (Nat × List Char)
  | 0, l => some (0, l)
  | _ + 1, [] => none
  | k + 1, c :: rest =>
    if c.isDigit then
      (readDigits k rest).map (fun p => ((c.toNat - 48) * 10 ^ k + p.1, p.2))
    else none

/-- `datetime.strptime(s, "%Y%m%d_%H%M%S")` on the canonical fixed-width
form the scheduler writes: four year digits, two digits for each other
field, an underscore between date and time, and nothing left over; the
resulting calendar value must be valid.  (Python's parser also accepts
some non-canonical digit widths; the scheduler never writes those and no
claim depends on them.) -/
def strptimeYmdHms? (s : String) : Option DT :=
  match readDigits 4 s.data with
  | none => none
  | some (y, r1) =>
  match readDigits 2 r1 with
  | none => none
  | some (mo, r2) =>
  match readDigits 2 r2 with
  | none => none
  | some (d, r3) =>
  match r3 with
  | '_' :: r4 =>
    match readDigits 2 r4 with
    | none => none
    | some (h, r5) =>
    match readDigits 2 r5 with
    | none => none
    | some (mi, r6) =>
    match readDigits 2 r6 with
    | none => none
    | some (sec, r7) =>
      match r7 with
      | [] =>
        let t : DT := ⟨y, mo, d, h, mi, sec⟩
        if t.valid then some t else none
      | _ => none
  | _ => none

/-! ### Host rows and configuration (orchestrator.py) -/

/-- A netkb row: a Python dict from column name to string value, covering
both the fixed columns (`MAC Address`, `IPs`, `Hostnames`, `Alive`,
`Ports`) and the dynamic per-action status columns. -/
abbrev Row := List (String × String)

/-- `row.get(k, "")`. -/
def rowGet (r : Row) (k : String) : String :=
  match r.find? (fun p => p.1 == k) with
  | some p => p.2
  | none => ""

/-- `k in row`. -/
def rowHas (r : Row) (k : String) : Bool :=
  (r.find? (fun p => p.1 == k)).isSome

/-- `row[k] = v`: replace the first binding of `k`, or append one. -/
def rowSet : Row → String → String → Row
  | [], k, v => [(k, v)]
  | (k', v') :: rest, k, v =>
    if k' == k then (k, v) :: rest else (k', v') :: rowSet rest k v

/-- Static description of one loaded action module: `action_name` is the
class name used as the status column key, `port` the declared target
port, `b_parent_action` the optional prerequisite action name. -/
structure ActionDesc where
  action_name : String
  port : Int
  b_parent_action : Option String
deriving Repr, DecidableEq

/-- The relevant fields of `shared_data`, together with the orchestrator's
derived `target_network` (network address and prefix length, derived at
startup from the `BJORN_IP` environment variable; `none` when unset). -/
structure Config where
  retry_success_actions : Bool
  success_retry_delay : Nat
  retry_failed_actions : Bool
  failed_retry_delay : Nat
  max_failed_retries : Int
  brute_force_running : Bool
  file_steal_running : Bool
  scan_vuln_running : Bool
  target_network : Option (Nat × Nat)
deriving Repr, DecidableEq

/-- One octet of a dotted-quad IPv4 address, as `ipaddress.IPv4Address`
accepts it: decimal digits, no leading zero, value at most 255. -/
def parseOctet? (s : String) : Option Nat :=
  match s.data with
  | [] => none
  | '0' :: [] => some 0
  | '0' :: _ :: _ => none
  | l =>
    match digitsToNat? l with
    | some n => if n ≤ 255 then some n else none
    | none => none

/-- `ipaddress.IPv4Address(s)` as a 32-bit integer, or `none` when the
string does not parse. -/
def parseIPv4? (s : String) : Option Nat :=
  match pySplitCh '.' s with
  | [a, b, c, d] =>
    match parseOctet? a, parseOctet? b, parseOctet? c, parseOctet? d with
    | some x, some y, some z, some w => some (((x * 256 + y) * 256 + z) * 256 + w)
    | _, _, _, _ => none
  | _ => none

/-- `Orchestrator.is_ip_in_target_network`: no filter when no target
network is set; membership compares the high `prefix` bits; an address
that fails to parse is treated as outside (the bare `except` branch). -/
def is_ip_in_target_network (net : Option (Nat × Nat)) (ip : String) : Bool :=
  match net with
  | none => true
  | some (base, pfx) =>
    match parseIPv4? ip with
    | some a => a / 2 ^ (32 - pfx) == base / 2 ^ (32 - pfx)
    | none => false

instance {ε α : Type} [DecidableEq ε] [DecidableEq α] : DecidableEq (Except ε α) :=
  fun x y =>
  match x, y with
  | .ok a, .ok b =>
    if h : a = b then isTrue (by rw [h]) else isFalse (by simp [h])
  | .error a, .error b =>
    if h : a = b then isTrue (by rw [h]) else isFalse (by simp [h])
  | .ok _, .error _ => isFalse (by simp)
  | .error _, .ok _ => isFalse (by simp)

/-- Result of one `action.execute(...)` call: a returned status string, or
a raised exception. -/
inductive ExecResult where
  | ok (r : String)
  | exn
deriving Repr, DecidableEq

/-- Observable outcome of one `execute_action` call: whether
`action.execute` was invoked, the returned boolean, whether
`write_data` was called, and the updated row. -/
structure ExecOut where
  ran : Bool
  ret : Bool
  wrote : Bool
  row : Row
deriving Repr, DecidableEq

/-- The outcome of an `execute_action` call that returned `False` before
reaching the execution block: nothing ran, nothing was written, the row is
unchanged. -/
def noRun (row : Row) : ExecOut := ⟨false, false, false, row⟩

/-- The failure count `prev_count` parsed from the previous status:
`int(prev_status.split('_')[1])` when the status contains `failed`, with
`0` on a `ValueError`/`IndexError` or when `failed` is absent. -/
def parseFailCount (st : String) : Int :=
  if containsSub "failed" st then
    match (pySplitCh '_' st)[1]? with
    | some p => (pyInt? p).getD 0
    | none => 0
  else 0

/-- The `try:` execution block of `execute_action` (orchestrator.py
509-543): run the action, record `success_<ts>`, `no_creds_<ts>` or
`failed_<n+1>_<ts>`, write the table through, and return
`result == 'success'` (`False` on an exception). -/
def runActionBody (now : DT) (row : Row) (actionKey : String) (res : ExecResult) :
    ExecOut :=
  let ts := now.fmt
  match res with
  | .ok r =>
    if r == "success" then ⟨true, true, true, rowSet row actionKey ("success_" ++ ts)⟩
    else if r == "no_creds_found" then
      ⟨true, false, true, rowSet row actionKey ("no_creds_" ++ ts)⟩
    else
      ⟨true, false, true,
        rowSet row actionKey
          ("failed_" ++ toString (parseFailCount (rowGet row actionKey) + 1) ++ "_" ++ ts)⟩
  | .exn =>
    ⟨true, false, true,
      rowSet row actionKey
        ("failed_" ++ toString (parseFailCount (rowGet row actionKey) + 1) ++ "_" ++ ts)⟩

/-- The legacy-format fallback of the failed-status check (orchestrator.py
498-507): re-parse the status as `failed_<ts>` and apply the failed retry
delay; parse failures fall through to execution. -/
def execLegacyFailedCheck (cfg : Config) (now : DT) (row : Row) (actionKey : String)
    (res : ExecResult) : ExecOut :=
  let parts := pySplitCh '_' (rowGet row actionKey)
  match parts[1]?, parts[2]? with
  | some p1, some p2 =>
    match strptimeYmdHms? (p1 ++ "_" ++ p2) with
    | some t =>
      if now.secs < t.secs + cfg.failed_retry_delay then noRun row
      else runActionBody now row actionKey res
    | none => runActionBody now row actionKey res
  | _, _ => runActionBody now row actionKey res

/-- The failed-status check of `execute_action` (orchestrator.py 479-507):
`failed_<count>_<ts>` is retried only when retries are enabled, the count
is below `max_failed_retries` and the failed retry delay has elapsed; a
status that does not parse in that form falls back to the legacy check. -/
def execFailedCheck (cfg : Config) (now : DT) (row : Row) (actionKey : String)
    (res : ExecResult) : ExecOut :=
  let st := rowGet row actionKey
  if containsSub "failed" st then
    if !cfg.retry_failed_actions then noRun row
    else
      let parts := pySplitCh '_' st
      match parts[1]? with
      | none => execLegacyFailedCheck cfg now row actionKey res
      | some p1 =>
        match pyInt? p1 with
        | none => execLegacyFailedCheck cfg now row actionKey res
        | some n =>
          match parts[2]?, parts[3]? with
          | some p2, some p3 =>
            match strptimeYmdHms? (p2 ++ "_" ++ p3) with
            | none => execLegacyFailedCheck cfg now row actionKey res
            | some t =>
              if n ≥ cfg.max_failed_retries then noRun row
              else if now.secs < t.secs + cfg.failed_retry_delay then noRun row
              else runActionBody now row actionKey res
          | _, _ => execLegacyFailedCheck cfg now row actionKey res
  else runActionBody now row actionKey res

/-- The credentials-exhausted check of `execute_action` (orchestrator.py
474-476) followed by the failed-status check. -/
def execNoCredsCheck (cfg : Config) (now : DT) (row : Row) (actionKey : String)
    (res : ExecResult) : ExecOut :=
  if containsSub "no_creds" (rowGet row actionKey) then noRun row
  else execFailedCheck cfg now row actionKey res

/-- The success-status check of `execute_action` (orchestrator.py
458-471) followed by the remaining checks: a successful status blocks
re-execution unless success retries are enabled and the success retry
delay has elapsed.  The branch catches only `ValueError`; a status whose
`split('_')` has fewer than three fields raises an uncaught `IndexError`,
modelled as `.error ()`. -/
def execSuccessCheck (cfg : Config) (now : DT) (row : Row) (actionKey : String)
    (res : ExecResult) : Except Unit ExecOut :=
  let st := rowGet row actionKey
  if containsSub "success" st then
    if !cfg.retry_success_actions then .ok (noRun row)
    else
      let parts := pySplitCh '_' st
      match parts[1]?, parts[2]? with
      | some p1, some p2 =>
        match strptimeYmdHms? (p1 ++ "_" ++ p2) with
        | some t =>
          if now.secs < t.secs + cfg.success_retry_delay then .ok (noRun row)
          else .ok (execNoCredsCheck cfg now row actionKey res)
        | none => .ok (execNoCredsCheck cfg now row actionKey res)
      | _, _ => .error ()
  else .ok (execNoCredsCheck cfg now row actionKey res)

/-- `Orchestrator.execute_action` (orchestrator.py 442-543).  The checks
run in source order: target-network filter, port membership, parent
dependency gate, success retry policy, credentials exhausted, failed retry
policy, then the execution block. -/
def execute_action (cfg : Config) (now : DT) (a : ActionDesc) (ip : String)
    (ports : List String) (row : Row) (actionKey : String) (res : ExecResult) :
    Except Unit ExecOut :=
  if !is_ip_in_target_network cfg.target_network ip then .ok (noRun row)
  else if !ports.contains (toString a.port) then .ok (noRun row)
  else
    match a.b_parent_action with
    | some p =>
      if p ≠ "" ∧ !containsSub "success" (rowGet row p) then .ok (noRun row)
      else execSuccessCheck cfg now row actionKey res
    | none => execSuccessCheck cfg now row actionKey res

/-- `Orchestrator.execute_standalone_action` (orchestrator.py 545-645),
modelled on the synthetic STANDALONE row it operates on.  The checks and
status transitions mirror `execute_action` without the network, port and
parent gates; the success-status branch again catches only `ValueError`,
so a status with fewer than three `_`-separated fields raises. -/
def execute_standalone_action (cfg : Config) (now : DT) (a : ActionDesc)
    (row0 : Row) (res : ExecResult) : Except Unit ExecOut :=
  let actionKey := a.action_name
  let row := if !rowHas row0 actionKey then rowSet row0 actionKey "" else row0
  execSuccessCheck cfg now row actionKey res

/-- The per-action status test inside `_host_fully_exhausted`
(orchestrator.py 180-197): `true` means the loop `continue`s (the action
is terminally done), `false` means the host is not exhausted. -/
def exhaustedStatusTerminal (cfg : Config) (row : Row) (a : ActionDesc) : Bool :=
  let st := rowGet row a.action_name
  if st == "" then false
  else if containsSub "no_creds" st then true
  else if containsSub "success" st ∧ !cfg.retry_success_actions then true
  else if containsSub "failed" st then
    let parsed :=
      match (pySplitCh '_' st)[1]? with
      | some p1 => pyInt? p1
      | none => none
    match parsed with
    | some n =>
      if n ≥ cfg.max_failed_retries then true
      else !cfg.retry_failed_actions
    | none => !cfg.retry_failed_actions
  else false

/-- `Orchestrator._host_fully_exhausted` (orchestrator.py 168-198): true
when every action whose port the host exposes is terminally done
(credentials exhausted, success without retry, failure count at the retry
cap, or failure with retries disabled) or gated behind an unsuccessful
parent. -/
def host_fully_exhausted (cfg : Config) (row : Row) (ports : List String) :
    List ActionDesc → Bool
  | [] => true
  | a :: rest =>
    if !ports.contains (toString a.port) then host_fully_exhausted cfg row ports rest
    else
      match a.b_parent_action with
      | some p =>
        if p ≠ "" ∧ !containsSub "success" (rowGet row p) then
          host_fully_exhausted cfg row ports rest
        else
          if exhaustedStatusTerminal cfg row a then host_fully_exhausted cfg row ports rest
          else false
      | none =>
        if exhaustedStatusTerminal cfg row a then host_fully_exhausted cfg row ports rest
        else false

/-- Observable outcome of one `_run_vuln_scan_single` call. -/
structure VulnOut where
  ran : Bool
  ret : Bool
  wrote : Bool
  row : Row
deriving Repr, DecidableEq

/-- The success retry-delay test of `_run_vuln_scan_single`
(orchestrator.py 275-286); parse failures are caught and mean no block. -/
def vulnSuccessDelayBlocks (cfg : Config) (now : DT) (st : String) : Bool :=
  let parts := pySplitCh '_' st
  match parts[1]?, parts[2]? with
  | some p1, some p2 =>
    match strptimeYmdHms? (p1 ++ "_" ++ p2) with
    | some t => now.secs < t.secs + cfg.success_retry_delay
    | none => false
  | _, _ => false

/-- The failed count and retry-delay test of `_run_vuln_scan_single`
(orchestrator.py 291-302); parse failures are caught and mean no block. -/
def vulnFailedBlocks (cfg : Config) (now : DT) (st : String) : Bool :=
  let parts := pySplitCh '_' st
  match parts[1]? with
  | none => false
  | some p1 =>
    match pyInt? p1 with
    | none => false
    | some n =>
      match parts[2]?, parts[3]? with
      | some p2, some p3 =>
        match strptimeYmdHms? (p2 ++ "_" ++ p3) with
        | some t => n ≥ cfg.max_failed_retries || now.secs < t.secs + cfg.failed_retry_delay
        | none => false
      | _, _ => false

/-- `Orchestrator._run_vuln_scan_single` (orchestrator.py 259-332): skip
when vulnerability scanning is disabled, the IP is outside the target
network, or the stored `NmapVulnScanner` status blocks re-execution under
the success/failed retry policy; otherwise run the scanner (whose outcome
is the `vres` oracle value), record `success_<ts>` or
`failed_<n+1>_<ts>`, write the table through, and return `True` unless
the scanner raised.  All parse failures here are caught. -/
def run_vuln_scan_single (cfg : Config) (now : DT) (vres : ExecResult) (row : Row) :
    VulnOut :=
  if !cfg.scan_vuln_running then ⟨false, false, false, row⟩
  else
    let statusKey := "NmapVulnScanner"
    let ip := rowGet row "IPs"
    if !is_ip_in_target_network cfg.target_network ip then ⟨false, false, false, row⟩
    else
      let st := rowGet row statusKey
      if containsSub "success" st ∧ !cfg.retry_success_actions then ⟨false, false, false, row⟩
      else if containsSub "success" st ∧ vulnSuccessDelayBlocks cfg now st then
        ⟨false, false, false, row⟩
      else if containsSub "failed" st ∧ !cfg.retry_failed_actions then ⟨false, false, false, row⟩
      else if containsSub "failed" st ∧ vulnFailedBlocks cfg now st then ⟨false, false, false, row⟩
      else
        let ts := now.fmt
        match vres with
        | .ok r =>
          if r == "success" then ⟨true, true, true, rowSet row statusKey ("success_" ++ ts)⟩
          else
            ⟨true, true, true,
              rowSet row statusKey
                ("failed_" ++ toString (parseFailCount st + 1) ++ "_" ++ ts)⟩
        | .exn =>
          ⟨true, false, true,
            rowSet row statusKey
              ("failed_" ++ toString (parseFailCount st + 1) ++ "_" ++ ts)⟩

/-! ### Cycle strategies

The three ordering strategies are modelled over a table (`List Row`) with
the result of each `action.execute` given by an oracle from `(ip, action
name)`, and the nmap scanner outcome by an oracle from `ip`.  Each
strategy returns the updated table together with the `(row index, action
name)` pairs whose execution block actually ran.  The global
`orchestrator_should_exit` / `manual_mode` loop breaks model asynchronous
interruption and are taken to be false for the cycle. -/

/-- An oracle giving the `action.execute` result for a host IP and an
action name. -/
abbrev ExecOracle := String → String → ExecResult

/-- The table record store. -/
abbrev Table := List Row

/-- One phase of the per-host action loops (orchestrator.py 227-237 and
241-251, and 404-413 / 423-432): iterate the action list, skipping parent
actions when `childPhase` and child actions otherwise (`b_parent_action
is None` tests), and run `execute_action` on each remaining action.
Returns the updated row and the names of the actions whose execution
block ran. -/
def actionsPass (cfg : Config) (now : DT) (oracle : ExecOracle) (childPhase : Bool)
    (ip : String) (ports : List String) :
    List ActionDesc → Row → Except Unit (Row × List String)
  | [], row => .ok (row, [])
  | a :: rest, row =>
    if a.b_parent_action.isSome != childPhase then
      actionsPass cfg now oracle childPhase ip ports rest row
    else do
      let out ← execute_action cfg now a ip ports row a.action_name
        (oracle ip a.action_name)
      let (row2, ns) ← actionsPass cfg now oracle childPhase ip ports rest out.row
      .ok (row2, (if out.ran then [a.action_name] else []) ++ ns)

/-- The two action phases run on one host row: parent actions when
`brute_force_running`, then child actions when `file_steal_running`
(orchestrator.py 226-251, 357-380). -/
def hostPhases (cfg : Config) (now : DT) (oracle : ExecOracle) (acts : List ActionDesc)
    (ip : String) (ports : List String) (row : Row) :
    Except Unit (Row × List String) := do
  let (r1, e1) ←
    if cfg.brute_force_running then actionsPass cfg now oracle false ip ports acts row
    else .ok (row, [])
  let (r2, e2) ←
    if cfg.file_steal_running then actionsPass cfg now oracle true ip ports acts r1
    else .ok (r1, [])
  .ok (r2, e1 ++ e2)

/-- `Orchestrator.process_alive_ips` (orchestrator.py 200-257): the
`spread` per-host action pass, skipping dead hosts and hosts that
`_host_fully_exhausted` reports done.  `i` is the index of the first row. -/
def process_alive_ips (cfg : Config) (now : DT) (oracle : ExecOracle)
    (acts : List ActionDesc) (i : Nat) :
    Table → Except Unit (Table × List (Nat × String))
  | [] => .ok ([], [])
  | row :: rest =>
    if rowGet row "Alive" != "1" then do
      let (t, ex) ← process_alive_ips cfg now oracle acts (i + 1) rest
      .ok (row :: t, ex)
    else
      let ip := rowGet row "IPs"
      let ports := pySplitCh ';' (rowGet row "Ports")
      if host_fully_exhausted cfg row ports acts then do
        let (t, ex) ← process_alive_ips cfg now oracle acts (i + 1) rest
        .ok (row :: t, ex)
      else do
        let (row2, ns) ← hostPhases cfg now oracle acts ip ports row
        let (t, ex) ← process_alive_ips cfg now oracle acts (i + 1) rest
        .ok (row2 :: t, ns.map (fun n => (i, n)) ++ ex)

/-- `Orchestrator.run_vuln_scans` (orchestrator.py 334-341): run
`_run_vuln_scan_single` on every alive row. -/
def run_vuln_scans (cfg : Config) (now : DT) (vOracle : String → ExecResult) (i : Nat) :
    Table → Table × List (Nat × String)
  | [] => ([], [])
  | row :: rest =>
    if rowGet row "Alive" != "1" then
      let (t, ex) := run_vuln_scans cfg now vOracle (i + 1) rest
      (row :: t, ex)
    else
      let out := run_vuln_scan_single cfg now (vOracle (rowGet row "IPs")) row
      let (t, ex) := run_vuln_scans cfg now vOracle (i + 1) rest
      (out.row :: t, (if out.ran then [(i, "NmapVulnScanner")] else []) ++ ex)

/-- The `spread` strategy as `Orchestrator.run` drives it (orchestrator.py
666-668): `process_alive_ips` followed by `run_vuln_scans`. -/
def spreadCycle (cfg : Config) (now : DT) (oracle : ExecOracle)
    (vOracle : String → ExecResult) (acts : List ActionDesc) (t : Table) :
    Except Unit (Table × List (Nat × String)) := do
  let (t1, e1) ← process_alive_ips cfg now oracle acts 0 t
  let (t2, e2) := run_vuln_scans cfg now vOracle 0 t1
  .ok (t2, e1 ++ e2)

/-- `Orchestrator.process_per_host` (orchestrator.py 343-390): parent
actions, child actions, then the vulnerability scan, completed per host
before advancing. -/
def process_per_host (cfg : Config) (now : DT) (oracle : ExecOracle)
    (vOracle : String → ExecResult) (acts : List ActionDesc) (i : Nat) :
    Table → Except Unit (Table × List (Nat × String))
  | [] => .ok ([], [])
  | row :: rest =>
    if rowGet row "Alive" != "1" then do
      let (t, ex) ← process_per_host cfg now oracle vOracle acts (i + 1) rest
      .ok (row :: t, ex)
    else do
      let ip := rowGet row "IPs"
      let ports := pySplitCh ';' (rowGet row "Ports")
      let (row2, ns) ← hostPhases cfg now oracle acts ip ports row
      let vout := run_vuln_scan_single cfg now (vOracle (rowGet row2 "IPs")) row2
      let (t, ex) ← process_per_host cfg now oracle vOracle acts (i + 1) rest
      .ok (vout.row :: t,
        ns.map (fun n => (i, n)) ++
          (if vout.ran then [(i, "NmapVulnScanner")] else []) ++ ex)

/-- One phase of `process_per_phase` over the whole table (orchestrator.py
397-432): for every alive row, run the phase-filtered action loop. -/
def phasePass (cfg : Config) (now : DT) (oracle : ExecOracle) (acts : List ActionDesc)
    (childPhase : Bool) (i : Nat) :
    Table → Except Unit (Table × List (Nat × String))
  | [] => .ok ([], [])
  | row :: rest =>
    if rowGet row "Alive" != "1" then do
      let (t, ex) ← phasePass cfg now oracle acts childPhase (i + 1) rest
      .ok (row :: t, ex)
    else do
      let ip := rowGet row "IPs"
      let ports := pySplitCh ';' (rowGet row "Ports")
      let (row2, ns) ← actionsPass cfg now oracle childPhase ip ports acts row
      let (t, ex) ← phasePass cfg now oracle acts childPhase (i + 1) rest
      .ok (row2 :: t, ns.map (fun n => (i, n)) ++ ex)

/-- A phase of `process_per_phase` guarded by its enable flag
(orchestrator.py 397, 416). -/
def phasePassF (cfg : Config) (now : DT) (oracle : ExecOracle) (acts : List ActionDesc)
    (flag : Bool) (childPhase : Bool) (i : Nat) (t : Table) :
    Except Unit (Table × List (Nat × String)) :=
  if flag then phasePass cfg now oracle acts childPhase i t else .ok (t, [])

/-- `Orchestrator.process_per_phase` (orchestrator.py 392-440): parent
actions over all hosts, then child actions over all hosts, then
vulnerability scans over all hosts. -/
def process_per_phase (cfg : Config) (now : DT) (oracle : ExecOracle)
    (vOracle : String → ExecResult) (acts : List ActionDesc) (t : Table) :
    Except Unit (Table × List (Nat × String)) := do
  let (t1, e1) ← phasePassF cfg now oracle acts cfg.brute_force_running false 0 t
  let (t2, e2) ← phasePassF cfg now oracle acts cfg.file_steal_running true 0 t1
  let (t3, e3) := run_vuln_scans cfg now vOracle 0 t2
  .ok (t3, e1 ++ e2 ++ e3)

/-- The executed `(row index, action name)` pairs of a cycle result, empty
when the cycle raised. -/
def execPairsOf (e : Except Unit (Table × List (Nat × String))) : List (Nat × String) :=
  match e with
  | .ok (_, l) => l
  | .error _ => []

/-! ### Scan output parsing (actions/nmap_vuln_scanner.py)

The NSE-output regexes are hand-compiled into deterministic character-list
matchers; each matcher's doc comment names the regex it implements.  The
relevant backtracking cases are noted where the greedy translation is
justified. -/

/-- ASCII lowercasing, for the `re.IGNORECASE` patterns. -/
def toLowerStr (s : String) : String := ⟨s.data.map Char.toLower⟩

/-- `re.sub(r'^\|[_ ]?\s*', '', line)`: strip one leading `|`, an optional
`_` or space, and any further whitespace. -/
def stripPipe (s : String) : String :=
  match s.data with
  | '|' :: rest =>
    let r2 :=
      match rest with
      | c :: r => if c = '_' ∨ c = ' ' then r else rest
      | [] => ([] : List Char)
    ⟨r2.dropWhile isPyWs⟩
  | _ => s

/-- `re.match(r'^\|[_ ]?\s', line)`: a content line of the current script
block (a pipe, an optional `_` or space, then one whitespace; when the
optional class consumes a space that is not followed by whitespace, the
regex backtracks to the empty option, so a pipe followed directly by a
whitespace character also matches). -/
def piContent (s : String) : Bool :=
  match s.data with
  | '|' :: c1 :: rest =>
    isPyWs c1 ||
      ((c1 = '_' || c1 = ' ') && (match rest with | c2 :: _ => isPyWs c2 | [] => false))
  | _ => false

/-- Does a character list contain a `-` (at any position) immediately
followed by a word character? -/
def dashThenWord : List Char → Bool
  | [] => false
  | '-' :: c :: rest => isWordChar c || dashThenWord (c :: rest)
  | _ :: rest => dashThenWord rest

/-- `_SCRIPT_RE = re.compile(r'^\|[_ ]?\s*([\w][\w-]*-[\w][\w-]*)\s*:\s*(.*)')`
applied with `re.match`.  The group can only consume characters from
`[\w-]`, and whatever follows the group must be optional whitespace and a
colon, so the group necessarily consumes the whole maximal `[\w-]` run;
that run matches the group exactly when it starts with a word character
and contains a dash followed by a word character.  Returns the script
identifier (group 1) and the inline text after the colon (group 2). -/
def scriptReMatch (s : String) : Option (String × String) :=
  match s.data with
  | '|' :: rest =>
    let r1 :=
      match rest with
      | c :: r => if c = '_' ∨ c = ' ' then r else rest
      | [] => ([] : List Char)
    let r2 := r1.dropWhile isPyWs
    let run := r2.takeWhile (fun c => isWordChar c || c = '-')
    match run with
    | [] => none
    | c :: tailRun =>
      if isWordChar c && dashThenWord tailRun then
        let r3 := (r2.drop run.length).dropWhile isPyWs
        match r3 with
        | ':' :: r4 => some (⟨run⟩, ⟨r4.dropWhile isPyWs⟩)
        | _ => none
      else none
  | _ => none

/-- `_NEGATIVE_RE`: case-insensitive search for the no-finding markers,
including the start-anchored `^ERROR(?::|$)` alternative. -/
def negativeRe (s : String) : Bool :=
  let l := toLowerStr s
  containsSub "couldn\x27t find any" l || containsSub "couldn\x27t find a file-type" l ||
  containsSub "not vulnerable" l || containsSub "no vulnerable" l ||
  containsSub "no issues found" l || containsSub "script execution failed" l ||
  (chPrefix "error".data l.data &&
    (match l.data.drop 5 with | [] => true | c :: _ => c = ':'))

/-- `_NOISE_RE`: case-insensitive start-anchored noise-line test. -/
def noiseRe (s : String) : Bool :=
  let l := (toLowerStr s).data
  chPrefix "spidering limited to:".data l || chPrefix "couldn\x27t find".data l ||
  chPrefix "no output from".data l || chPrefix "did not find any".data l ||
  chPrefix "server does not".data l

/-- Attempt to match `State:\s+((?:LIKELY\s+)?VULNERABLE)` at the head of
a character list, returning group 1.  The whitespace runs are maximal
(the following literals start with non-whitespace characters, so the
greedy match is the only candidate), and when the `LIKELY` branch fails
the engine retries the empty option of the optional group. -/
def stateMatchAt (l : List Char) : Option (List Char) :=
  if chPrefix "State:".data l then
    let r := l.drop 6
    let ws := r.takeWhile isPyWs
    if ws = [] then none
    else
      let r2 := r.drop ws.length
      if chPrefix "LIKELY".data r2 then
        let r3 := r2.drop 6
        let ws2 := r3.takeWhile isPyWs
        if ws2 ≠ [] && chPrefix "VULNERABLE".data (r3.drop ws2.length) then
          some ("LIKELY".data ++ ws2 ++ "VULNERABLE".data)
        else if chPrefix "VULNERABLE".data r2 then some "VULNERABLE".data
        else none
      else if chPrefix "VULNERABLE".data r2 then some "VULNERABLE".data
      else none
  else none

/-- Leftmost-match scan for `stateMatchAt`. -/
def stateSearchL : List Char → Option String
  | [] => none
  | c :: rest =>
    match stateMatchAt (c :: rest) with
    | some g => some ⟨g⟩
    | none => stateSearchL rest

/-- `re.search(r'State:\s+((?:LIKELY\s+)?VULNERABLE)', line)`, returning
group 1 of the leftmost match. -/
def stateSearch (s : String) : Option String := stateSearchL s.data

/-- Read exactly `k` digit characters from the front of a list. -/
def takeNDigits : Nat → List Char → Option (List Char × List Char)
  | 0, l => some ([], l)
  | _ + 1, [] => none
  | k + 1, c :: rest =>
    if c.isDigit then (takeNDigits k rest).map (fun p => (c :: p.1, p.2)) else none

/-- Attempt to match `CVE-\d{4}-\d+` at the head of a character list,
returning the matched text. -/
def matchCveAt (l : List Char) : Option (List Char) :=
  if chPrefix "CVE-".data l then
    match takeNDigits 4 (l.drop 4) with
    | some (d4, r1) =>
      match r1 with
      | '-' :: r2 =>
        let run := r2.takeWhile Char.isDigit
        if run = [] then none else some ("CVE-".data ++ d4 ++ '-' :: run)
      | _ => none
    | none => none
  else none

/-- Scan for `CVE-\d{4}-\d+` matches.  Python's `re.findall` collects
non-overlapping matches and resumes after each one; since a match contains
the character `C` only at its start, no further match can begin inside a
previous one, so a one-character-advance scan collects exactly the same
matches. -/
def cveFindallL : List Char → List String
  | [] => []
  | c :: rest =>
    match matchCveAt (c :: rest) with
    | some m => (⟨m⟩ : String) :: cveFindallL rest
    | none => cveFindallL rest

/-- `re.findall(r'CVE-\d{4}-\d+', line)`. -/
def cveFindall (s : String) : List String := cveFindallL s.data

/-- `re.match(r'^(\d+/\w+)\s+\w+\s+(\S+)', line)`: a port-table line such
as `80/tcp open http`, returning the `port/proto` group and the service
group.  All runs are maximal; each is followed by a character outside its
class in any successful match, so the greedy translation is exact. -/
def portMatch (s : String) : Option (String × String) :=
  let l := s.data
  let ds := l.takeWhile Char.isDigit
  if ds = [] then none
  else
    match l.drop ds.length with
    | '/' :: r1 =>
      let w1 := r1.takeWhile isWordChar
      if w1 = [] then none
      else
        let r2 := r1.drop w1.length
        let sp1 := r2.takeWhile isPyWs
        if sp1 = [] then none
        else
          let r3 := r2.drop sp1.length
          let w2 := r3.takeWhile isWordChar
          if w2 = [] then none
          else
            let r4 := r3.drop w2.length
            let sp2 := r4.takeWhile isPyWs
            if sp2 = [] then none
            else
              let r5 := r4.drop sp2.length
              let ns := r5.takeWhile (fun c => !isPyWs c)
              if ns = [] then none else some (⟨ds ++ '/' :: w1⟩, ⟨ns⟩)
    | _ => none

/-- `re.match(r'^\d+/\w+\s+\w+', l)`: the block-terminating port-line test
inside the detail parser's collection loop. -/
def portStartRe (s : String) : Bool :=
  let l := s.data
  let ds := l.takeWhile Char.isDigit
  if ds = [] then false
  else
    match l.drop ds.length with
    | '/' :: r1 =>
      let w1 := r1.takeWhile isWordChar
      if w1 = [] then false
      else
        let r2 := r1.drop w1.length
        let sp1 := r2.takeWhile isPyWs
        if sp1 = [] then false
        else !((r2.drop sp1.length).takeWhile isWordChar).isEmpty
    | _ => false

/-- `re.match(r'^\|?\s+References:', line)`: when the optional pipe is
present it must be consumed (whitespace cannot match `|`), then at least
one whitespace character, then the literal. -/
def refsLineRe (s : String) : Bool :=
  let l := match s.data with
    | '|' :: r => r
    | l => l
  match l with
  | c :: _ => isPyWs c && chPrefix "References:".data (l.dropWhile isPyWs)
  | [] => false

/-- `re.match(r'Risk factor:\s*(.+)', stripped)` followed by `.strip()` of
group 1.  The call sites pass already-stripped lines, so the group is
empty exactly when nothing follows the whitespace. -/
def riskMatch (s : String) : Option String :=
  if chPrefix "Risk factor:".data s.data then
    let r := (s.data.drop 12).dropWhile isPyWs
    if r = [] then none else some (pyStrip ⟨r⟩)
  else none

/-- `re.match(r'Disclosure date:\s*(.+)', stripped)` followed by
`.strip()` of group 1. -/
def dateMatch (s : String) : Option String :=
  if chPrefix "Disclosure date:".data s.data then
    let r := (s.data.drop 16).dropWhile isPyWs
    if r = [] then none else some (pyStrip ⟨r⟩)
  else none

/-- `_SCRIPT_TITLES`: the friendly-title lookup table. -/
def scriptTitles : List (String × String) :=
  [("http-git", "Git Repository Exposed"),
   ("http-enum", "Common Paths Found"),
   ("http-trace", "TRACE Method Enabled"),
   ("http-csrf", "CSRF Vulnerabilities"),
   ("http-cookie-flags", "Insecure Cookie Flags"),
   ("http-cross-domain-policy", "Permissive Cross-Domain Policy"),
   ("http-internal-ip-disclosure", "Internal IP Disclosure"),
   ("http-method-tamper", "HTTP Method Tampering"),
   ("http-sql-injection", "SQL Injection"),
   ("http-dombased-xss", "DOM-Based XSS"),
   ("http-stored-xss", "Stored XSS"),
   ("http-shellshock", "Shellshock (CVE-2014-6271)"),
   ("http-slowloris-check", "Slowloris DoS Vulnerability"),
   ("http-fileupload-exploiter", "File Upload Vulnerability"),
   ("http-passwd", "Password File Disclosure"),
   ("http-phpmyadmin-dir-traversal", "phpMyAdmin Directory Traversal"),
   ("http-jsonp-detection", "JSONP Endpoint Found"),
   ("http-phpself-xss", "PHP_SELF XSS")]

/-- `_SCRIPT_TITLES.get(name, default)`. -/
def titleGet (name default : String) : String :=
  match scriptTitles.find? (fun p => p.1 == name) with
  | some p => p.2
  | none => default

/-- One parsed finding record, with the fields of the Python dict. -/
structure Finding where
  port : String
  service : String
  script : String
  title : String
  state : String
  cves : List String
  risk : String
  description : String
  disclosure_date : String
  references : List String
deriving Repr, DecidableEq

/-- `NmapVulnScanner._make_info_finding`. -/
def make_info_finding (name text : String) (port svc : Option String) : Finding :=
  ⟨port.getD "", svc.getD "", name, titleGet name name, "FOUND", [], "Informational",
    text, "", []⟩

/-- Python `list(set(l))` on the collected CVE lists.  CPython's set
iteration order is unspecified; the model keeps the first occurrence of
each element, and the theorems about CVE lists are stated up to
membership. -/
def dedupKeepFirst (l : List String) : List String := l.foldl setAdd []

/-- The mutable locals of the `_parse_vuln_block` line loop. -/
structure BlockSt where
  state : String
  title : String
  cves : List String
  risk : String
  desc : List String
  disclosure : String
  refs : List String
  in_refs : Bool
  got_title : Bool
  info : List String
deriving Repr, DecidableEq

/-- The initial `_parse_vuln_block` state. -/
def BlockSt.init : BlockSt := ⟨"", "", [], "", [], "", [], false, false, []⟩

/-- One iteration of the `_parse_vuln_block` line loop
(nmap_vuln_scanner.py 544-619), in source order; `none` models the
`return None` taken on a `NOT VULNERABLE` line. -/
def blockLineStep (st : BlockSt) (line : String) : Option BlockSt :=
  let stripped := pyStrip (stripPipe line)
  match stateSearch line with
  | some g => some { st with state := g, in_refs := false }
  | none =>
  if stripped == "VULNERABLE:" || stripped == "LIKELY VULNERABLE:" then some st
  else if containsSub "NOT VULNERABLE" stripped then none
  else if negativeRe stripped then some st
  else if stripped == "References:" then some { st with in_refs := true }
  else if st.in_refs && (containsSub "http://" stripped || containsSub "https://" stripped) then
    some { st with refs := st.refs ++ [stripped] }
  else if !st.in_refs && cveFindall line ≠ [] then
    some { st with cves := st.cves ++ cveFindall line }
  else if pyStartsWith stripped "IDs:" then some st
  else
    match riskMatch stripped with
    | some r => some { st with risk := r, in_refs := false }
    | none =>
    match dateMatch stripped with
    | some d => some { st with disclosure := d, in_refs := false }
    | none =>
      if pyStartsWith stripped "State:" || pyStartsWith stripped "IDs:" ||
          pyStartsWith stripped "Risk factor:" || pyStartsWith stripped "Disclosure date:" ||
          pyStartsWith stripped "References:" then some st
      else
        let st :=
          if stripped ≠ "" && !noiseRe stripped then { st with info := st.info ++ [stripped] }
          else st
        if !st.got_title && stripped ≠ "" then
          some { st with title := stripped, got_title := true }
        else if st.got_title && !st.in_refs && stripped ≠ "" then
          some { st with desc := st.desc ++ [stripped] }
        else some st

/-- The result construction at the end of `_parse_vuln_block`
(nmap_vuln_scanner.py 621-651). -/
def finishBlock (name : String) (port svc : Option String) (st : BlockSt) :
    Option Finding :=
  if st.state ≠ "" then
    some ⟨port.getD "", svc.getD "", name, titleGet name st.title, st.state,
      dedupKeepFirst st.cves, st.risk, joinSep " " st.desc, st.disclosure, st.refs⟩
  else if st.info ≠ [] && !pyStartsWith name "http-vuln-" then
    some ⟨port.getD "", svc.getD "", name, titleGet name name, "FOUND",
      dedupKeepFirst st.cves, (if st.risk ≠ "" then st.risk else "Informational"),
      joinSep " " (st.info.take 10), "", st.refs⟩
  else none

/-- The `_parse_vuln_block` loop over the block lines. -/
def parseBlockLoop (name : String) (port svc : Option String) :
    List String → BlockSt → Option Finding
  | [], st => finishBlock name port svc st
  | l :: rest, st =>
    match blockLineStep st l with
    | none => none
    | some st2 => parseBlockLoop name port svc rest st2

/-- `NmapVulnScanner._parse_vuln_block` (nmap_vuln_scanner.py 526-651). -/
def parse_vuln_block (name : String) (blockLines : List String)
    (port svc : Option String) : Option Finding :=
  parseBlockLoop name port svc blockLines BlockSt.init

/-- The parsing position of `parse_vulnerability_details`: either at top
level, or collecting the lines of the block opened for `script`, with the
port/service context captured when the block header was read. -/
inductive PMode where
  | top
  | block (script : String) (acc : List String) (bport bsvc : Option String)
deriving Repr, DecidableEq

/-- The state threaded through `parse_vulnerability_details`. -/
structure PState where
  mode : PMode
  port : Option String
  svc : Option String
  findings : List Finding
deriving Repr, DecidableEq

/-- The conditions on which the inner block-collection loop of
`parse_vulnerability_details` stops without consuming the line
(nmap_vuln_scanner.py 462-470). -/
def stopLine (l : String) : Bool :=
  portStartRe l || containsSub "Host script results:" l ||
    (scriptReMatch l).isSome || !pyStartsWith l "|"

/-- Top-level handling of one line in `parse_vulnerability_details`
(nmap_vuln_scanner.py 426-479): track the port/service context, handle
single-line results, open multi-line blocks. -/
def detailsTopStep (st : PState) (line : String) : PState :=
  match portMatch line with
  | some (p, s) => { st with port := some p, svc := some s }
  | none =>
  if containsSub "Host script results:" line then { st with port := some "host", svc := none }
  else
    match scriptReMatch line with
    | some (name, inline) =>
      let it := pyStrip inline
      if pyStartsWith line "|_" && it ≠ "" then
        if negativeRe it then st
        else { st with findings := st.findings ++ [make_info_finding name it st.port st.svc] }
      else { st with mode := .block name [] st.port st.svc }
    | none => st

/-- One line of `parse_vulnerability_details`: when collecting a block,
a stop line closes the block (emitting its finding) and is then handled
at top level, exactly as the source loop re-examines the line after the
inner `while` breaks without advancing. -/
def detailsStep (st : PState) (line : String) : PState :=
  match st.mode with
  | .block name acc bport bsvc =>
    if stopLine line then
      let fs := st.findings ++ (parse_vuln_block name acc bport bsvc).toList
      detailsTopStep ⟨.top, st.port, st.svc, fs⟩ line
    else { st with mode := .block name (acc ++ [line]) bport bsvc }
  | .top => detailsTopStep st line

/-- `NmapVulnScanner.parse_vulnerability_details` (nmap_vuln_scanner.py
415-481). -/
def parse_vulnerability_details (s : String) : List Finding :=
  let st := (pySplitlines s).foldl detailsStep ⟨.top, none, none, []⟩
  match st.mode with
  | .block name acc bport bsvc => st.findings ++ (parse_vuln_block name acc bport bsvc).toList
  | .top => st.findings

/-- The mutable locals of the `parse_vulnerabilities` label parser. -/
structure LabelSt where
  current : Option String
  cves : List String
  vuln : Bool
  out : Bool
  refs : Bool
  acc : List String
deriving Repr, DecidableEq

/-- `save_block` of `parse_vulnerabilities` (nmap_vuln_scanner.py
362-375): fold the finished block into the label set. -/
def saveLabelBlock (st : LabelSt) : List String :=
  match st.current with
  | none => st.acc
  | some cur =>
    let friendly := titleGet cur cur
    if st.vuln then
      if st.cves ≠ [] then
        setAdd st.acc (friendly ++ " (" ++ joinSep ", " (sortStrings st.cves) ++ ")")
      else setAdd st.acc friendly
    else if st.out && !pyStartsWith cur "http-vuln-" then setAdd st.acc friendly
    else st.acc

/-- One line of `parse_vulnerabilities` (nmap_vuln_scanner.py 377-409). -/
def labelStep (st : LabelSt) (line : String) : LabelSt :=
  match scriptReMatch line with
  | some (name, inline) =>
    let acc := saveLabelBlock st
    let it := pyStrip inline
    ⟨some name, [], false, it ≠ "" && !negativeRe it, false, acc⟩
  | none =>
    let st :=
      if st.current.isSome && piContent line then
        let stripped := pyStrip (stripPipe line)
        if stripped ≠ "" && !negativeRe stripped then { st with out := true } else st
      else st
    let st := if refsLineRe line then { st with refs := true } else st
    let st := if (stateSearch line).isSome then { st with vuln := true } else st
    if st.vuln && !st.refs then { st with cves := (cveFindall line).foldl setAdd st.cves }
    else st

/-- `NmapVulnScanner.parse_vulnerabilities` (nmap_vuln_scanner.py
333-413): the `"; "`-joined sorted label set. -/
def parse_vulnerabilities (s : String) : String :=
  let st := (pySplitlines s).foldl labelStep ⟨none, [], false, false, false, []⟩
  joinSep "; " (sortStrings (saveLabelBlock st))

/-! ### Scan driver (scan_vulnerabilities / execute) -/

/-- The cross-port merge step of `scan_vulnerabilities`
(nmap_vuln_scanner.py 261-270): extend the existing record's port, and —
only when the port was extended — its service. -/
def mergePortSvc (g f : Finding) : Finding :=
  if f.port ≠ "" && !containsSub f.port g.port then
    let g2 := { g with port := g.port ++ ", " ++ f.port }
    if f.service ≠ "" && !containsSub f.service g2.service then
      { g2 with service := g2.service ++ ", " ++ f.service }
    else g2
  else g

/-- Fold one finding into the merged list: update the first record with
the same script identifier, or append.  This matches the source's
`seen_scripts` index map, which always points at the unique record with
that script identifier. -/
def updateFirst : List Finding → Finding → List Finding
  | [], f => [f]
  | g :: rest, f =>
    if g.script == f.script then mergePortSvc g f :: rest else g :: updateFirst rest f

/-- The cross-port duplicate merge of `scan_vulnerabilities`
(nmap_vuln_scanner.py 255-274). -/
def mergeDetails (l : List Finding) : List Finding := l.foldl updateFirst []

/-- The redundant-port elision of `scan_vulnerabilities`
(nmap_vuln_scanner.py 221-225): when both 445 and 139 are exposed, drop
139 from the scan plan. -/
def elidePorts (ports : List String) : List String :=
  let pset := ports.map pyStrip
  if pset.contains "445" && pset.contains "139" then
    ports.filter (fun p => pyStrip p ≠ "139")
  else ports

/-- The per-port result oracle of a host scan: `none` when the port's
scan timed out or failed (in which case the source always has empty
captured text), `some text` when it completed. -/
abbrev PortOracle := String → Option String

/-- The port loop of `scan_vulnerabilities` (nmap_vuln_scanner.py
230-253), accumulating combined text, the label set, the finding list and
the count of ports that completed. -/
def scanLoop (oracle : PortOracle) :
    List String → String × List String × List Finding × Nat →
      String × List String × List Finding × Nat
  | [], acc => acc
  | p :: rest, (combined, vulns, details, nSucc) =>
    match oracle p with
    | some stdout =>
      let vulnsStr := parse_vulnerabilities stdout
      let vulns2 :=
        if vulnsStr ≠ "" then
          (pySplitSemiSpace vulnsStr).foldl
            (fun acc v => if pyStrip v ≠ "" then setAdd acc (pyStrip v) else acc) vulns
        else vulns
      let details2 := details ++ parse_vulnerability_details stdout
      scanLoop oracle rest (combined ++ stdout, vulns2, details2, nSucc + 1)
    | none => scanLoop oracle rest (combined, vulns, details, nSucc)

/-- Observable outcome of `scan_vulnerabilities`: the returned combined
text (`none` models the Python `None` return), and the persisted summary
cells and detail records (`none` when nothing was written). -/
structure ScanOut where
  result : Option String
  summaryVulns : Option String
  summaryPorts : Option String
  details : Option (List Finding)
deriving Repr, DecidableEq

/-- `NmapVulnScanner.scan_vulnerabilities` (nmap_vuln_scanner.py
214-289). -/
def scan_vulnerabilities (oracle : PortOracle) (ports0 : List String) : ScanOut :=
  let ports := elidePorts ports0
  let (combined, vulns, details, nSucc) := scanLoop oracle ports ("", [], [], 0)
  let merged := mergeDetails details
  if nSucc > 0 then
    ⟨some combined, some (joinSep "; " (sortStrings vulns)), some (joinSep "," ports),
      some merged⟩
  else ⟨none, none, none, none⟩

/-- `NmapVulnScanner.execute` (nmap_vuln_scanner.py 291-318): `failed`
when NSE scripts are unavailable or the scan returned `None`; `success`
otherwise, with the raw combined text persisted (`ScanOut.result`). -/
def nmapExecute (nse : Bool) (oracle : PortOracle) (row : Row) : String × ScanOut :=
  if !nse then ("failed", ⟨none, none, none, none⟩)
  else
    let ports := pySplitCh ';' (rowGet row "Ports")
    let out := scan_vulnerabilities oracle ports
    ((if out.result.isSome then "success" else "failed"), out)

/-! ### Specification-side helpers

Closed forms used to state properties of the scan loop; they are related
to `scanLoop` by proof, not used by the embedded code. -/

/-- The concatenated text of the ports that completed, in scan order. -/
def portsText (oracle : PortOracle) : List String → String
  | [] => ""
  | p :: rest => (oracle p).getD "" ++ portsText oracle rest

/-- The concatenated parsed findings of the ports that completed. -/
def portsDetails (oracle : PortOracle) : List String → List Finding
  | [] => []
  | p :: rest =>
    (match oracle p with
     | some s => parse_vulnerability_details s
     | none => []) ++ portsDetails oracle rest

/-- How many ports completed. -/
def countCompleted (oracle : PortOracle) : List String → Nat
  | [] => 0
  | p :: rest => (if (oracle p).isSome then 1 else 0) + countCompleted oracle rest

/-- Well-formedness of a stored status string, phrased through the
observations the scheduler makes of it: the status is empty, or carries
exactly one of the markers `success` / `no_creds` / `failed` with the
timestamp (and, for `failed`, the count) fields parsing as the scheduler
parses them.  Every status the scheduler itself writes satisfies this. -/
def WFStatus (s : String) : Prop :=
  s = "" ∨
  (containsSub "success" s = true ∧ containsSub "no_creds" s = false ∧
    containsSub "failed" s = false ∧
    ∃ p1 p2 t, (pySplitCh '_' s)[1]? = some p1 ∧ (pySplitCh '_' s)[2]? = some p2 ∧
      strptimeYmdHms? (p1 ++ "_" ++ p2) = some t) ∨
  (containsSub "no_creds" s = true ∧ containsSub "success" s = false ∧
    containsSub "failed" s = false) ∨
  (containsSub "failed" s = true ∧ containsSub "success" s = false ∧
    containsSub "no_creds" s = false ∧
    ∃ p1 n p2 p3 t, (pySplitCh '_' s)[1]? = some p1 ∧ pyInt? p1 = some n ∧
      (pySplitCh '_' s)[2]? = some p2 ∧ (pySplitCh '_' s)[3]? = some p3 ∧
      strptimeYmdHms? (p2 ++ "_" ++ p3) = some t)

/-- One row's processing in a phase of `process_per_phase`, with the
phase's enable flag and the per-row alive test factored out; used to
relate the per-phase table passes to the per-host processing. -/
def phaseRowF (cfg : Config) (now : DT) (oracle : ExecOracle) (acts : List ActionDesc)
    (flag cp : Bool) (row : Row) : Except Unit (Row × List String) :=
  if flag then
    if rowGet row "Alive" != "1" then .ok (row, [])
    else
      actionsPass cfg now oracle cp (rowGet row "IPs")
        (pySplitCh ';' (rowGet row "Ports")) acts row
  else .ok (row, [])

/-! ### Basic lemmas about rows and the execute-action branch structure -/

theorem str_append_empty (s : String) : s ++ "" = s := by
  cases s with
  | mk data => show String.mk (data ++ []) = String.mk data; simp

theorem str_empty_append (s : String) : "" ++ s = s := by
  cases s with
  | mk data => show String.mk ([] ++ data) = String.mk data; simp

theorem str_append_assoc (a b c : String) : a ++ b ++ c = a ++ (b ++ c) := by
  cases a with
  | mk da =>
    cases b with
    | mk db =>
      cases c with
      | mk dc =>
        show String.mk (da ++ db ++ dc) = String.mk (da ++ (db ++ dc))
        simp

theorem rowGet_rowSet_self (k v : String) :
    ∀ r : Row, rowGet (rowSet r k v) k = v := by
  intro r
  induction r with
  | nil => simp [rowSet, rowGet, List.find?]
  | cons p rest ih =>
    by_cases h : p.1 == k
    · simp [rowSet, h, rowGet, List.find?]
    · simp only [rowSet, h, Bool.false_eq_true, if_false]
      simpa [rowGet, List.find?, h] using ih

theorem rowGet_rowSet_ne (k k' v : String) (hne : k' ≠ k) :
    ∀ r : Row, rowGet (rowSet r k v) k' = rowGet r k' := by
  intro r
  induction r with
  | nil =>
    simp [rowSet, rowGet, List.find?, show (k == k') = false by
      simp [beq_iff_eq]; exact fun h => hne h.symm]
  | cons p rest ih =>
    by_cases h : p.1 == k
    · have hk : p.1 = k := by simpa [beq_iff_eq] using h
      simp [rowSet, h, rowGet, List.find?, show (k == k') = false by
        simp [beq_iff_eq]; exact fun hh => hne hh.symm, hk]
    · simp only [rowSet, h, Bool.false_eq_true, if_false]
      by_cases h2 : p.1 == k'
      · simp [rowGet, List.find?, h2]
      · simpa [rowGet, List.find?, h2] using ih

theorem rowHas_of_rowGet_ne (k : String) :
    ∀ r : Row, rowGet r k ≠ "" → rowHas r k = true := by
  intro r
  induction r with
  | nil => intro h; simp [rowGet, List.find?] at h
  | cons p rest ih =>
    intro h
    by_cases hp : p.1 == k
    · simp [rowHas, List.find?, hp]
    · simp only [rowGet, List.find?, hp] at h
      simp only [rowHas, List.find?, hp]
      exact ih h

theorem noRun_ran (row : Row) : (noRun row).ran = false := rfl

theorem runActionBody_ran (now : DT) (row : Row) (key : String) (res : ExecResult) :
    (runActionBody now row key res).ran = true := by
  unfold runActionBody
  dsimp only
  repeat' split
  all_goals rfl

theorem runActionBody_wrote (now : DT) (row : Row) (key : String) (res : ExecResult) :
    (runActionBody now row key res).wrote = true := by
  unfold runActionBody
  dsimp only
  repeat' split
  all_goals rfl

theorem execLegacyFailedCheck_cases (cfg : Config) (now : DT) (row : Row)
    (key : String) (res : ExecResult) :
    execLegacyFailedCheck cfg now row key res = noRun row ∨
      execLegacyFailedCheck cfg now row key res = runActionBody now row key res := by
  unfold execLegacyFailedCheck
  dsimp only
  repeat' split
  all_goals first
    | exact Or.inl rfl
    | exact Or.inr rfl

theorem execFailedCheck_cases (cfg : Config) (now : DT) (row : Row)
    (key : String) (res : ExecResult) :
    execFailedCheck cfg now row key res = noRun row ∨
      execFailedCheck cfg now row key res = runActionBody now row key res := by
  unfold execFailedCheck
  dsimp only
  repeat' split
  all_goals first
    | exact Or.inl rfl
    | exact Or.inr rfl
    | exact execLegacyFailedCheck_cases cfg now row key res

theorem execNoCredsCheck_cases (cfg : Config) (now : DT) (row : Row)
    (key : String) (res : ExecResult) :
    execNoCredsCheck cfg now row key res = noRun row ∨
      execNoCredsCheck cfg now row key res = execFailedCheck cfg now row key res := by
  unfold execNoCredsCheck
  split
  · exact Or.inl rfl
  · exact Or.inr rfl

theorem execSuccessCheck_shape (cfg : Config) (now : DT) (row : Row)
    (key : String) (res : ExecResult) :
    execSuccessCheck cfg now row key res = .ok (noRun row) ∨
      execSuccessCheck cfg now row key res = .ok (execNoCredsCheck cfg now row key res) ∨
      (execSuccessCheck cfg now row key res = .error () ∧
        containsSub "success" (rowGet row key) = true) := by
  unfold execSuccessCheck
  dsimp only
  repeat' split
  all_goals first
    | exact Or.inl rfl
    | exact Or.inr (Or.inl rfl)
    | exact Or.inr (Or.inr ⟨rfl, by assumption⟩)

theorem execute_action_shape (cfg : Config) (now : DT) (a : ActionDesc) (ip : String)
    (ports : List String) (row : Row) (key : String) (res : ExecResult) :
    execute_action cfg now a ip ports row key res = .ok (noRun row) ∨
      execute_action cfg now a ip ports row key res =
        execSuccessCheck cfg now row key res := by
  unfold execute_action
  repeat' split
  all_goals first
    | exact Or.inl rfl
    | exact Or.inr rfl

theorem execute_action_ran_eq (cfg : Config) (now : DT) (a : ActionDesc) (ip : String)
    (ports : List String) (row : Row) (key : String) (res : ExecResult) (out : ExecOut)
    (hok : execute_action cfg now a ip ports row key res = .ok out)
    (hran : out.ran = true) :
    out = execFailedCheck cfg now row key res := by
  rcases execute_action_shape cfg now a ip ports row key res with h | h
  · rw [h] at hok
    injection hok with h2
    rw [← h2] at hran
    exact absurd hran (by simp [noRun])
  · rw [h] at hok
    rcases execSuccessCheck_shape cfg now row key res with h2 | h2 | ⟨h2, _⟩
    · rw [h2] at hok
      injection hok with h3
      rw [← h3] at hran
      exact absurd hran (by simp [noRun])
    · rw [h2] at hok
      injection hok with h3
      rcases execNoCredsCheck_cases cfg now row key res with h4 | h4
      · rw [h4] at h3
        rw [← h3] at hran
        exact absurd hran (by simp [noRun])
      · rw [h4] at h3
        exact h3.symm
    · rw [h2] at hok
      exact absurd hok (by simp)

theorem execFailedCheck_ran_conditions (cfg : Config) (now : DT) (row : Row)
    (key : String) (res : ExecResult) (s1 s2 s3 : String) (n : Int) (t : DT)
    (hf : containsSub "failed" (rowGet row key) = true)
    (hp1 : (pySplitCh '_' (rowGet row key))[1]? = some s1)
    (hn : pyInt? s1 = some n)
    (hp2 : (pySplitCh '_' (rowGet row key))[2]? = some s2)
    (hp3 : (pySplitCh '_' (rowGet row key))[3]? = some s3)
    (ht : strptimeYmdHms? (s2 ++ "_" ++ s3) = some t)
    (hran : (execFailedCheck cfg now row key res).ran = true) :
    cfg.retry_failed_actions = true ∧ n < cfg.max_failed_retries ∧
      t.secs + cfg.failed_retry_delay ≤ now.secs := by
  unfold execFailedCheck at hran
  simp only [hf, if_true] at hran
  simp only [hp1, hn, hp2, hp3, ht] at hran
  by_cases hr : cfg.retry_failed_actions
  · simp only [hr, Bool.not_true, Bool.false_eq_true, if_false] at hran
    by_cases hm : n ≥ cfg.max_failed_retries
    · rw [if_pos hm] at hran
      exact absurd hran (by simp [noRun])
    · rw [if_neg hm] at hran
      by_cases hd : now.secs < t.secs + cfg.failed_retry_delay
      · rw [if_pos hd] at hran
        exact absurd hran (by simp [noRun])
      · exact ⟨hr, lt_of_not_ge hm, Nat.le_of_not_lt hd⟩
  · simp only [Bool.not_eq_true] at hr
    simp only [hr, Bool.not_false, if_true] at hran
    exact absurd hran (by simp [noRun])

theorem execNoCredsCheck_of_no_creds (cfg : Config) (now : DT) (row : Row)
    (key : String) (res : ExecResult)
    (hnc : containsSub "no_creds" (rowGet row key) = true) :
    execNoCredsCheck cfg now row key res = noRun row := by
  unfold execNoCredsCheck
  simp [hnc]

theorem execSuccessCheck_of_no_creds (cfg : Config) (now : DT) (row : Row)
    (key : String) (res : ExecResult)
    (hnc : containsSub "no_creds" (rowGet row key) = true)
    (hcase : containsSub "success" (rowGet row key) = false ∨
      cfg.retry_success_actions = false ∨ 3 ≤ (pySplitCh '_' (rowGet row key)).length) :
    execSuccessCheck cfg now row key res = .ok (noRun row) := by
  have hnr := execNoCredsCheck_of_no_creds cfg now row key res hnc
  unfold execSuccessCheck
  dsimp only
  cases hs : containsSub "success" (rowGet row key) with
  | false => simp [hs, hnr]
  | true =>
    rcases hcase with hcase | hcase | hcase
    · rw [hs] at hcase; exact absurd hcase (by simp)
    · simp [hcase, hnr]
    · cases hrs : cfg.retry_success_actions with
      | false => simp [hrs]
      | true =>
        simp only [hs, if_true, hrs, Bool.not_true, Bool.false_eq_true, if_false]
        have h1 : (pySplitCh '_' (rowGet row key))[1]? =
            some ((pySplitCh '_' (rowGet row key)).get ⟨1, by omega⟩) :=
          List.getElem?_eq_getElem (by omega)
        have h2 : (pySplitCh '_' (rowGet row key))[2]? =
            some ((pySplitCh '_' (rowGet row key)).get ⟨2, by omega⟩) :=
          List.getElem?_eq_getElem (by omega)
        rw [h1, h2]
        dsimp only
        split
        · split
          · rfl
          · rw [hnr]
        · rw [hnr]

/-! ### Claim theorems: C10, C4, C2 -/

/-- C10: when a target network is configured, `execute_action` and
`_run_vuln_scan_single` silently skip (return `False`, run nothing, leave
the row unchanged) any host whose IP is outside it; an IP that does not
parse as IPv4 is treated as outside; with no target network the filter
passes every IP. -/
theorem C10_target_network_filter :
    (∀ ip : String, is_ip_in_target_network none ip = true) ∧
    (∀ (net : Nat × Nat) (ip : String), parseIPv4? ip = none →
      is_ip_in_target_network (some net) ip = false) ∧
    (∀ (cfg : Config) (now : DT) (a : ActionDesc) (ip : String) (ports : List String)
        (row : Row) (key : String) (res : ExecResult),
      is_ip_in_target_network cfg.target_network ip = false →
      execute_action cfg now a ip ports row key res = .ok (noRun row)) ∧
    (∀ (cfg : Config) (now : DT) (vres : ExecResult) (row : Row),
      is_ip_in_target_network cfg.target_network (rowGet row "IPs") = false →
      run_vuln_scan_single cfg now vres row = ⟨false, false, false, row⟩) := by
  refine ⟨fun ip => rfl, ?_, ?_, ?_⟩
  · intro net ip h
    cases net with
    | mk base pfx => simp [is_ip_in_target_network, h]
  · intro cfg now a ip ports row key res h
    unfold execute_action
    simp [h]
  · intro cfg now vres row h
    unfold run_vuln_scan_single
    split
    · rfl
    · simp [h]

/-- C10 witness: a concrete out-of-network host is skipped by both
functions, a concrete garbage IP is treated as outside, and the empty
filter passes a concrete IP. -/
theorem C10_witness :
    is_ip_in_target_network none "10.0.0.7" = true ∧
    is_ip_in_target_network (some (167772160, 24)) "not-an-ip" = false ∧
    execute_action ⟨true, 0, true, 0, 3, true, true, true, some (167772160, 24)⟩
        ⟨2024, 1, 1, 0, 0, 0⟩ ⟨"ActionX", 80, none⟩ "10.0.1.5" ["80"]
        [("IPs", "10.0.1.5")] "ActionX" (.ok "success") =
      .ok (noRun [("IPs", "10.0.1.5")]) ∧
    run_vuln_scan_single ⟨true, 0, true, 0, 3, true, true, true, some (167772160, 24)⟩
        ⟨2024, 1, 1, 0, 0, 0⟩ (.ok "success") [("IPs", "10.0.1.5")] =
      ⟨false, false, false, [("IPs", "10.0.1.5")]⟩ :=
  ⟨C10_target_network_filter.1 "10.0.0.7",
   C10_target_network_filter.2.1 (167772160, 24) "not-an-ip" (by decide),
   C10_target_network_filter.2.2.1 _ _ _ _ _ _ _ _ (by decide),
   C10_target_network_filter.2.2.2 _ _ _ _ (by decide)⟩

/-- C4: an action with a non-empty parent whose parent status does not
contain `success` is skipped by `execute_action`: it returns `False`
without invoking `execute`, without writing, and with the row (hence its
own status entry) unchanged.  The cycle strategies invoke child actions
only through `execute_action`, so a child never executes before its
parent's status contains `success` for the same host row. -/
theorem C4_parent_dependency_gate (cfg : Config) (now : DT) (a : ActionDesc)
    (ip : String) (ports : List String) (row : Row) (key : String) (res : ExecResult)
    (p : String) (hpar : a.b_parent_action = some p) (hp : p ≠ "")
    (hsucc : containsSub "success" (rowGet row p) = false) :
    execute_action cfg now a ip ports row key res = .ok (noRun row) := by
  unfold execute_action
  split
  · rfl
  · split
    · rfl
    · rw [hpar]
      dsimp only
      rw [if_pos ⟨hp, by simp [hsucc]⟩]

/-- C4 witness: a concrete child action behind an unsuccessful parent is
skipped with its row untouched. -/
theorem C4_witness :
    execute_action ⟨true, 0, true, 0, 3, true, true, true, none⟩ ⟨2024, 1, 1, 0, 0, 0⟩
        ⟨"StealFilesSSH", 22, some "SSHBruteforce"⟩ "10.0.0.9" ["22"]
        [("SSHBruteforce", "failed_1_20240101_000000")] "StealFilesSSH" (.ok "success") =
      .ok (noRun [("SSHBruteforce", "failed_1_20240101_000000")]) :=
  C4_parent_dependency_gate _ _ _ _ _ _ _ _ "SSHBruteforce" rfl (by decide) (by decide)

/-- C2 counterexample: the claim as stated fails.  For the stored status
`successno_creds` (which contains `no_creds`) with success retries
enabled, `execute_action` does not return `False`: the success branch
evaluates `action_status.split('_')[2]` on a two-field split and raises
an uncaught `IndexError` (only `ValueError` is caught at
orchestrator.py 470). -/
theorem C2_counterexample :
    containsSub "no_creds" "successno_creds" = true ∧
    execute_action ⟨true, 0, true, 0, 3, true, true, true, none⟩ ⟨2024, 1, 1, 0, 0, 0⟩
        ⟨"ActionX", 80, none⟩ "10.0.0.2" ["80"] [("ActionX", "successno_creds")]
        "ActionX" (.ok "success") = .error () := by
  exact ⟨by decide, by decide⟩

/-- C2 amended: a stored status containing `no_creds` makes both
`execute_action` and `execute_standalone_action` return `False` without
invoking `execute` and without changing the stored status, provided the
status does not simultaneously contain `success` while success retries
are enabled and the status splits on `_` into fewer than three fields
(that corner raises an uncaught `IndexError` instead, as the
counterexample shows).  Every status the scheduler itself writes
satisfies the proviso. -/
theorem C2_no_creds_terminal :
    (∀ (cfg : Config) (now : DT) (a : ActionDesc) (ip : String) (ports : List String)
        (row : Row) (key : String) (res : ExecResult),
      containsSub "no_creds" (rowGet row key) = true →
      (containsSub "success" (rowGet row key) = false ∨
        cfg.retry_success_actions = false ∨
        3 ≤ (pySplitCh '_' (rowGet row key)).length) →
      execute_action cfg now a ip ports row key res = .ok (noRun row)) ∧
    (∀ (cfg : Config) (now : DT) (a : ActionDesc) (row : Row) (res : ExecResult),
      containsSub "no_creds" (rowGet row a.action_name) = true →
      (containsSub "success" (rowGet row a.action_name) = false ∨
        cfg.retry_success_actions = false ∨
        3 ≤ (pySplitCh '_' (rowGet row a.action_name)).length) →
      execute_standalone_action cfg now a row res = .ok (noRun row)) := by
  constructor
  · intro cfg now a ip ports row key res hnc hcase
    rcases execute_action_shape cfg now a ip ports row key res with h | h
    · exact h
    · rw [h]
      exact execSuccessCheck_of_no_creds cfg now row key res hnc hcase
  · intro cfg now a row res hnc hcase
    have hne : rowGet row a.action_name ≠ "" := by
      intro he
      rw [he] at hnc
      exact absurd hnc (by decide)
    have hhas := rowHas_of_rowGet_ne a.action_name row hne
    unfold execute_standalone_action
    simp only [hhas, Bool.not_true, Bool.false_eq_true, if_false]
    exact execSuccessCheck_of_no_creds cfg now row a.action_name res hnc hcase

/-- C2 witness: a concrete `no_creds_<ts>` status is terminal for both
functions. -/
theorem C2_witness :
    containsSub "no_creds" (rowGet [("ActionX", "no_creds_20240101_000000")] "ActionX") =
      true ∧
    execute_action ⟨true, 0, true, 0, 3, true, true, true, none⟩ ⟨2024, 6, 1, 0, 0, 0⟩
        ⟨"ActionX", 80, none⟩ "10.0.0.2" ["80"]
        [("ActionX", "no_creds_20240101_000000")] "ActionX" (.ok "success") =
      .ok (noRun [("ActionX", "no_creds_20240101_000000")]) ∧
    execute_standalone_action ⟨true, 0, true, 0, 3, true, true, true, none⟩
        ⟨2024, 6, 1, 0, 0, 0⟩ ⟨"ActionX", 0, none⟩
        [("ActionX", "no_creds_20240101_000000")] (.ok "success") =
      .ok (noRun [("ActionX", "no_creds_20240101_000000")]) :=
  ⟨by decide,
   C2_no_creds_terminal.1 _ _ _ _ _ _ _ _ (by decide) (Or.inl (by decide)),
   C2_no_creds_terminal.2 _ _ _ _ _ (by decide) (Or.inl (by decide))⟩

/-! ### Claim theorems: C1, C3 -/

/-- C1: whenever `execute_action` passes all eligibility checks (its
execution block ran), the recorded transition is determined by the
execute result — `success` gives `success_<ts>`, `no_creds_found` gives
`no_creds_<ts>`, any other result or a raised exception gives
`failed_<n+1>_<ts>` with `n` the failure count parsed from the previous
status (`parseFailCount`, which is `0` when the previous status is absent
or not parseable) — and in every case the host table is written through
(`write_data` called) before the function returns. -/
theorem C1_outcome_transitions (cfg : Config) (now : DT) (a : ActionDesc) (ip : String)
    (ports : List String) (row : Row) (key : String) (res : ExecResult) (out : ExecOut)
    (hok : execute_action cfg now a ip ports row key res = .ok out)
    (hran : out.ran = true) :
    out.wrote = true ∧
    (res = .ok "success" → rowGet out.row key = "success_" ++ now.fmt) ∧
    (res = .ok "no_creds_found" → rowGet out.row key = "no_creds_" ++ now.fmt) ∧
    (∀ r, res = .ok r → r ≠ "success" → r ≠ "no_creds_found" →
      rowGet out.row key =
        "failed_" ++ toString (parseFailCount (rowGet row key) + 1) ++ "_" ++ now.fmt) ∧
    (res = .exn → rowGet out.row key =
        "failed_" ++ toString (parseFailCount (rowGet row key) + 1) ++ "_" ++ now.fmt) := by
  have hout := execute_action_ran_eq cfg now a ip ports row key res out hok hran
  rcases execFailedCheck_cases cfg now row key res with hc | hc
  · rw [hc] at hout
    rw [hout] at hran
    exact absurd hran (by simp [noRun])
  · rw [hc] at hout
    subst hout
    refine ⟨runActionBody_wrote now row key res, ?_, ?_, ?_, ?_⟩
    · rintro rfl
      unfold runActionBody
      have e1 : ("success" == "success") = true := by decide
      simp [e1, rowGet_rowSet_self]
    · rintro rfl
      unfold runActionBody
      have e1 : ("no_creds_found" == "success") = false := by decide
      have e2 : ("no_creds_found" == "no_creds_found") = true := by decide
      simp [e1, e2, rowGet_rowSet_self]
    · rintro r rfl hne1 hne2
      unfold runActionBody
      have e1 : (r == "success") = false := by
        simp only [beq_eq_false_iff_ne, ne_eq]; exact hne1
      have e2 : (r == "no_creds_found") = false := by
        simp only [beq_eq_false_iff_ne, ne_eq]; exact hne2
      simp [e1, e2, rowGet_rowSet_self]
    · rintro rfl
      unfold runActionBody
      simp [rowGet_rowSet_self]

/-- C1 witness: a never-attempted action succeeds, records
`success_<ts>` and writes through. -/
theorem C1_witness :
    execute_action ⟨false, 0, true, 0, 3, true, true, true, none⟩ ⟨2024, 1, 2, 0, 0, 0⟩
        ⟨"ActionX", 80, none⟩ "10.0.0.2" ["80"] [("ActionX", "")] "ActionX"
        (.ok "success") =
      .ok ⟨true, true, true, [("ActionX", "success_20240102_000000")]⟩ ∧
    (ExecOut.mk true true true [("ActionX", "success_20240102_000000")]).wrote = true ∧
    rowGet (ExecOut.mk true true true [("ActionX", "success_20240102_000000")]).row
        "ActionX" = "success_" ++ (DT.mk 2024 1 2 0 0 0).fmt :=
  have h :
      execute_action ⟨false, 0, true, 0, 3, true, true, true, none⟩ ⟨2024, 1, 2, 0, 0, 0⟩
          ⟨"ActionX", 80, none⟩ "10.0.0.2" ["80"] [("ActionX", "")] "ActionX"
          (.ok "success") =
        .ok ⟨true, true, true, [("ActionX", "success_20240102_000000")]⟩ := by decide
  have hc := C1_outcome_transitions ⟨false, 0, true, 0, 3, true, true, true, none⟩
    ⟨2024, 1, 2, 0, 0, 0⟩ ⟨"ActionX", 80, none⟩ "10.0.0.2" ["80"] [("ActionX", "")]
    "ActionX" (.ok "success") ⟨true, true, true, [("ActionX", "success_20240102_000000")]⟩
    h rfl
  ⟨h, hc.1, hc.2.1 rfl⟩

/-- C3: a `failed_<n>_<ts>` status is eligible only when failed retries
are enabled, `n` is below `max_failed_retries`, and `failed_retry_delay`
has elapsed since `ts` (first conjunct); in particular, with
`max_failed_retries = 3` a status `failed_3_20240101_000000` makes
`execute_action` return `False` without executing at every time and under
every retry-delay setting (second conjunct). -/
theorem C3_failed_retry_policy (cfg : Config) (now : DT) (a : ActionDesc) (ip : String)
    (ports : List String) (row : Row) (key : String) (res : ExecResult) (out : ExecOut)
    (s1 s2 s3 : String) (n : Int) (t : DT)
    (hf : containsSub "failed" (rowGet row key) = true)
    (hp1 : (pySplitCh '_' (rowGet row key))[1]? = some s1)
    (hn : pyInt? s1 = some n)
    (hp2 : (pySplitCh '_' (rowGet row key))[2]? = some s2)
    (hp3 : (pySplitCh '_' (rowGet row key))[3]? = some s3)
    (ht : strptimeYmdHms? (s2 ++ "_" ++ s3) = some t)
    (hok : execute_action cfg now a ip ports row key res = .ok out)
    (hran : out.ran = true) :
    (cfg.retry_failed_actions = true ∧ n < cfg.max_failed_retries ∧
      t.secs + cfg.failed_retry_delay ≤ now.secs) ∧
    (∀ (cfg2 : Config) (now2 : DT) (a2 : ActionDesc) (ip2 : String)
        (ports2 : List String) (row2 : Row) (key2 : String) (res2 : ExecResult),
      cfg2.max_failed_retries = 3 →
      rowGet row2 key2 = "failed_3_20240101_000000" →
      execute_action cfg2 now2 a2 ip2 ports2 row2 key2 res2 = .ok (noRun row2)) := by
  constructor
  · have hout := execute_action_ran_eq cfg now a ip ports row key res out hok hran
    rw [hout] at hran
    exact execFailedCheck_ran_conditions cfg now row key res s1 s2 s3 n t hf hp1 hn hp2
      hp3 ht hran
  · intro cfg2 now2 a2 ip2 ports2 row2 key2 res2 hmax hst
    have hsf : containsSub "success" (rowGet row2 key2) = false := by rw [hst]; decide
    have hnf : containsSub "no_creds" (rowGet row2 key2) = false := by rw [hst]; decide
    have hff : containsSub "failed" (rowGet row2 key2) = true := by rw [hst]; decide
    have e1 : (pySplitCh '_' (rowGet row2 key2))[1]? = some "3" := by rw [hst]; decide
    have e2 : (pySplitCh '_' (rowGet row2 key2))[2]? = some "20240101" := by
      rw [hst]; decide
    have e3 : (pySplitCh '_' (rowGet row2 key2))[3]? = some "000000" := by
      rw [hst]; decide
    have hfc : execFailedCheck cfg2 now2 row2 key2 res2 = noRun row2 := by
      unfold execFailedCheck
      simp only [hff, if_true, e1, e2, e3]
      have e4 : pyInt? "3" = some 3 := by decide
      have e5 : strptimeYmdHms? ("20240101" ++ "_" ++ "000000") =
          some ⟨2024, 1, 1, 0, 0, 0⟩ := by decide
      simp only [e4, e5, hmax]
      split
      · rfl
      · simp
    rcases execute_action_shape cfg2 now2 a2 ip2 ports2 row2 key2 res2 with h | h
    · exact h
    · rw [h]
      unfold execSuccessCheck
      simp only [hsf, Bool.false_eq_true, if_false]
      unfold execNoCredsCheck
      simp only [hnf, Bool.false_eq_true, if_false, hfc]

/-- C3 witness: a `failed_1_<ts>` status with retries enabled, a zero
delay and a later clock runs, and the necessary conditions hold at that
instantiation. -/
theorem C3_witness :
    (Config.mk false 0 true 0 3 true true true none).retry_failed_actions = true ∧
    (1 : Int) < (Config.mk false 0 true 0 3 true true true none).max_failed_retries ∧
    (DT.mk 2024 1 1 0 0 0).secs +
        (Config.mk false 0 true 0 3 true true true none).failed_retry_delay ≤
      (DT.mk 2024 2 1 0 0 0).secs :=
  (C3_failed_retry_policy ⟨false, 0, true, 0, 3, true, true, true, none⟩
    ⟨2024, 2, 1, 0, 0, 0⟩ ⟨"ActionX", 80, none⟩ "10.0.0.2" ["80"]
    [("ActionX", "failed_1_20240101_000000")] "ActionX" (.ok "failed")
    ⟨true, false, true, [("ActionX", "failed_2_20240201_000000")]⟩
    "1" "20240101" "000000" 1 ⟨2024, 1, 1, 0, 0, 0⟩
    (by decide) (by decide) (by decide) (by decide) (by decide) (by decide)
    (by decide) rfl).1

/-! ### Lemmas for the scan parser claims -/

theorem blockLineStep_none (st : BlockSt) (l : String)
    (hnv : containsSub "NOT VULNERABLE" (pyStrip (stripPipe l)) = true)
    (hns : stateSearch l = none) :
    blockLineStep st l = none := by
  unfold blockLineStep
  rw [hns]
  dsimp only
  have h1 : (pyStrip (stripPipe l) == "VULNERABLE:") = false := by
    cases he : pyStrip (stripPipe l) == "VULNERABLE:" with
    | false => rfl
    | true =>
      have heq : pyStrip (stripPipe l) = "VULNERABLE:" := eq_of_beq he
      rw [heq] at hnv
      exact absurd hnv (by decide)
  have h2 : (pyStrip (stripPipe l) == "LIKELY VULNERABLE:") = false := by
    cases he : pyStrip (stripPipe l) == "LIKELY VULNERABLE:" with
    | false => rfl
    | true =>
      have heq : pyStrip (stripPipe l) = "LIKELY VULNERABLE:" := eq_of_beq he
      rw [heq] at hnv
      exact absurd hnv (by decide)
  simp only [h1, h2, Bool.or_self, Bool.false_eq_true, if_false, hnv, if_true]

theorem parseBlockLoop_none (name : String) (port svc : Option String) :
    ∀ (lines : List String) (st : BlockSt) (l : String), l ∈ lines →
      containsSub "NOT VULNERABLE" (pyStrip (stripPipe l)) = true →
      stateSearch l = none →
      parseBlockLoop name port svc lines st = none := by
  intro lines
  induction lines with
  | nil => intro st l hl _ _; exact absurd hl (List.not_mem_nil l)
  | cons a rest ih =>
    intro st l hl hnv hns
    rcases List.mem_cons.mp hl with heq | hmem
    · subst heq
      unfold parseBlockLoop
      rw [blockLineStep_none st l hnv hns]
    · unfold parseBlockLoop
      cases hstep : blockLineStep st a with
      | none => rfl
      | some st2 => exact ih st2 l hmem hnv hns

theorem mergePortSvc_script_cves (g f : Finding) :
    (mergePortSvc g f).script = g.script ∧ (mergePortSvc g f).cves = g.cves := by
  unfold mergePortSvc
  dsimp only
  repeat' split
  all_goals exact ⟨rfl, rfl⟩

theorem updateFirst_mem : ∀ (acc : List Finding) (f g : Finding),
    g ∈ updateFirst acc f →
    (∃ g0 ∈ acc, g.script = g0.script ∧ g.cves = g0.cves) ∨ g = f := by
  intro acc
  induction acc with
  | nil =>
    intro f g hg
    unfold updateFirst at hg
    exact Or.inr (List.mem_singleton.mp hg)
  | cons a rest ih =>
    intro f g hg
    unfold updateFirst at hg
    split at hg
    · rcases List.mem_cons.mp hg with heq | hmem
      · subst heq
        exact Or.inl ⟨a, List.mem_cons_self a rest, (mergePortSvc_script_cves a f).1,
          (mergePortSvc_script_cves a f).2⟩
      · exact Or.inl ⟨g, List.mem_cons_of_mem a hmem, rfl, rfl⟩
    · rcases List.mem_cons.mp hg with heq | hmem
      · subst heq
        exact Or.inl ⟨g, List.mem_cons_self g rest, rfl, rfl⟩
      · rcases ih f g hmem with ⟨g0, hg0, hs, hc⟩ | h2
        · exact Or.inl ⟨g0, List.mem_cons_of_mem a hg0, hs, hc⟩
        · exact Or.inr h2

theorem mergeFold_spec : ∀ (l acc : List Finding) (g : Finding),
    g ∈ l.foldl updateFirst acc →
    (∃ g0 ∈ acc, g.script = g0.script ∧ g.cves = g0.cves) ∨
      (∃ f ∈ l, g.script = f.script ∧ g.cves = f.cves) := by
  intro l
  induction l with
  | nil => intro acc g hg; exact Or.inl ⟨g, hg, rfl, rfl⟩
  | cons f rest ih =>
    intro acc g hg
    simp only [List.foldl_cons] at hg
    rcases ih (updateFirst acc f) g hg with ⟨g0, hg0, hs, hc⟩ | ⟨f0, hf0, hs, hc⟩
    · rcases updateFirst_mem acc f g0 hg0 with ⟨g1, hg1, hs1, hc1⟩ | heq
      · exact Or.inl ⟨g1, hg1, hs.trans hs1, hc.trans hc1⟩
      · exact Or.inr ⟨f, List.mem_cons_self f rest, heq ▸ hs, heq ▸ hc⟩
    · exact Or.inr ⟨f0, List.mem_cons_of_mem f hf0, hs, hc⟩

theorem updateFirst_script_intro (f : Finding) :
    ∀ acc : List Finding, ∃ g ∈ updateFirst acc f, g.script = f.script := by
  intro acc
  induction acc with
  | nil => exact ⟨f, List.mem_singleton.mpr rfl, rfl⟩
  | cons a rest ih =>
    unfold updateFirst
    split
    · rename_i hbe
      refine ⟨mergePortSvc a f, List.mem_cons_self _ _, ?_⟩
      rw [(mergePortSvc_script_cves a f).1]
      exact eq_of_beq hbe
    · obtain ⟨g, hg, hs⟩ := ih
      exact ⟨g, List.mem_cons_of_mem a hg, hs⟩

theorem updateFirst_script_keep (f : Finding) (s : String) :
    ∀ acc : List Finding, (∃ g ∈ acc, g.script = s) →
      ∃ g ∈ updateFirst acc f, g.script = s := by
  intro acc
  induction acc with
  | nil => rintro ⟨g, hg, _⟩; exact absurd hg (List.not_mem_nil g)
  | cons a rest ih =>
    rintro ⟨g, hg, hs⟩
    unfold updateFirst
    split
    · rcases List.mem_cons.mp hg with heq | hmem
      · subst heq
        exact ⟨mergePortSvc g f, List.mem_cons_self _ _,
          ((mergePortSvc_script_cves g f).1).trans hs⟩
      · exact ⟨g, List.mem_cons_of_mem _ hmem, hs⟩
    · rcases List.mem_cons.mp hg with heq | hmem
      · subst heq
        exact ⟨g, List.mem_cons_self g _, hs⟩
      · obtain ⟨g2, hg2, hs2⟩ := ih ⟨g, hmem, hs⟩
        exact ⟨g2, List.mem_cons_of_mem a hg2, hs2⟩

theorem mergeFold_script_cover : ∀ (l acc : List Finding) (f : Finding),
    f ∈ l ∨ (∃ g ∈ acc, g.script = f.script) →
    ∃ g ∈ l.foldl updateFirst acc, g.script = f.script := by
  intro l
  induction l with
  | nil =>
    intro acc f h
    rcases h with h | h
    · exact absurd h (List.not_mem_nil f)
    · exact h
  | cons a rest ih =>
    intro acc f h
    simp only [List.foldl_cons]
    rcases h with h | h
    · rcases List.mem_cons.mp h with heq | hmem
      · subst heq
        exact ih (updateFirst acc f) f (Or.inr (updateFirst_script_intro f acc))
      · exact ih (updateFirst acc a) f (Or.inl hmem)
    · exact ih (updateFirst acc a) f (Or.inr (updateFirst_script_keep a f.script acc h))

/-! ### Claim theorems: C7, C8, C9 -/

/-- C7 counterexample: the claim as stated fails.  The block consisting of
the single line `|   State: VULNERABLE - NOT VULNERABLE` contains the
marker `NOT VULNERABLE`, yet `_parse_vuln_block` emits a Finding: the
`State:` regex matches first and its branch `continue`s past the discard
check (nmap_vuln_scanner.py 549-553), so the line never reaches the
`NOT VULNERABLE` test. -/
theorem C7_counterexample :
    containsSub "NOT VULNERABLE" "|   State: VULNERABLE - NOT VULNERABLE" = true ∧
    parse_vuln_block "http-x-y" ["|   State: VULNERABLE - NOT VULNERABLE"] none none =
      some ⟨"", "", "http-x-y", "", "VULNERABLE", [], "", "", "", []⟩ :=
  ⟨by decide, by decide⟩

/-- C7 amended: a block line that contains `NOT VULNERABLE` (after the
script-output marker is stripped) and does not itself match the
`State:\s+(LIKELY\s+)?VULNERABLE` regex discards the whole block — no
Finding is emitted regardless of any other collected content.  The
counterexample shows the regex proviso is necessary. -/
theorem C7_not_vulnerable_discards (name : String) (lines : List String)
    (port svc : Option String) (l : String) (hl : l ∈ lines)
    (hnv : containsSub "NOT VULNERABLE" (pyStrip (stripPipe l)) = true)
    (hns : stateSearch l = none) :
    parse_vuln_block name lines port svc = none :=
  parseBlockLoop_none name port svc lines BlockSt.init l hl hnv hns

/-- C7 witness: a block that already collected a `State: VULNERABLE`
marker is still discarded by a later `NOT VULNERABLE` line. -/
theorem C7_witness :
    "|   NOT VULNERABLE" ∈ ["|   State: VULNERABLE", "|   NOT VULNERABLE"] ∧
    parse_vuln_block "smb-vuln-x" ["|   State: VULNERABLE", "|   NOT VULNERABLE"]
      none none = none :=
  ⟨by decide,
   C7_not_vulnerable_discards "smb-vuln-x" ["|   State: VULNERABLE", "|   NOT VULNERABLE"]
     none none "|   NOT VULNERABLE" (by decide) (by decide) (by decide)⟩

/-- C8 counterexample: the claim as stated fails.  Merging two findings
with the same script identifier keeps only the first one's CVE list — the
merge loop (nmap_vuln_scanner.py 261-270) accumulates port and service
but never touches `cves` — so `CVE-2017-0145`, present in the second
input, is absent from the merged record. -/
theorem C8_counterexample :
    "CVE-2017-0145" ∈
      (Finding.mk "139/tcp" "nbt" "smb-vuln-x" "t" "VULNERABLE" ["CVE-2017-0145"]
        "" "" "" []).cves ∧
    mergeDetails
        [⟨"445/tcp", "smb", "smb-vuln-x", "t", "VULNERABLE", ["CVE-2017-0144"], "", "", "", []⟩,
         ⟨"139/tcp", "nbt", "smb-vuln-x", "t", "VULNERABLE", ["CVE-2017-0145"], "", "", "", []⟩] =
      [⟨"445/tcp, 139/tcp", "smb, nbt", "smb-vuln-x", "t", "VULNERABLE",
        ["CVE-2017-0144"], "", "", "", []⟩] ∧
    "CVE-2017-0145" ∉
      (Finding.mk "445/tcp, 139/tcp" "smb, nbt" "smb-vuln-x" "t" "VULNERABLE"
        ["CVE-2017-0144"] "" "" "" []).cves :=
  ⟨by decide, by decide, by decide⟩

/-- C8 amended: every script identifier present among the parsed findings
is represented by exactly the merged record whose CVE list is copied
unchanged from one input finding with that identifier (the first
encountered) — the merge accumulates only port and service, so CVE ids
that appear only in the other same-script inputs are dropped, as the
counterexample shows. -/
theorem C8_merge_cves (l : List Finding) :
    (∀ g ∈ mergeDetails l, ∃ f ∈ l, f.script = g.script ∧ g.cves = f.cves) ∧
    (∀ f ∈ l, ∃ g ∈ mergeDetails l, g.script = f.script) := by
  constructor
  · intro g hg
    rcases mergeFold_spec l [] g hg with ⟨g0, hg0, _, _⟩ | ⟨f, hf, hs, hc⟩
    · exact absurd hg0 (List.not_mem_nil g0)
    · exact ⟨f, hf, hs.symm, hc⟩
  · intro f hf
    exact mergeFold_script_cover l [] f (Or.inl hf)

/-- C8 witness: the amended statement at the counterexample's input — the
merged record's CVE list is that of an input finding with the same
script identifier. -/
theorem C8_witness :
    ∃ f ∈
      [(⟨"445/tcp", "smb", "smb-vuln-x", "t", "VULNERABLE", ["CVE-2017-0144"], "", "", "", []⟩ : Finding),
       ⟨"139/tcp", "nbt", "smb-vuln-x", "t", "VULNERABLE", ["CVE-2017-0145"], "", "", "", []⟩],
      f.script =
        (Finding.mk "445/tcp, 139/tcp" "smb, nbt" "smb-vuln-x" "t" "VULNERABLE"
          ["CVE-2017-0144"] "" "" "" []).script ∧
      (Finding.mk "445/tcp, 139/tcp" "smb, nbt" "smb-vuln-x" "t" "VULNERABLE"
          ["CVE-2017-0144"] "" "" "" []).cves = f.cves :=
  (C8_merge_cves
    [⟨"445/tcp", "smb", "smb-vuln-x", "t", "VULNERABLE", ["CVE-2017-0144"], "", "", "", []⟩,
     ⟨"139/tcp", "nbt", "smb-vuln-x", "t", "VULNERABLE", ["CVE-2017-0145"], "", "", "", []⟩]).1
    ⟨"445/tcp, 139/tcp", "smb, nbt", "smb-vuln-x", "t", "VULNERABLE",
      ["CVE-2017-0144"], "", "", "", []⟩ (by decide)

/-- C9 counterexample: the claim's scenario fails on the Finding's port.
Parsing exactly the two-line text (which contains no port-table line)
emits the http-git Finding with an empty `port` field, not `80/tcp` —
the port context of `parse_vulnerability_details` is only set by a
port-table line such as `80/tcp open http`. -/
theorem C9_counterexample :
    (parse_vulnerability_details "| http-git:\n|   10.0.0.5:80/.git/\n").map
        (fun f => (f.script, f.state, f.port)) = [("http-git", "FOUND", "")] ∧
    ("" : String) ≠ "80/tcp" :=
  ⟨by decide, by decide⟩

/-- C9 amended: for host ports `80, 445, 139` the scan plan drops `139`
as redundant with `445`; parsing the two-line block emits a Finding with
scriptId `http-git` and state `FOUND` but empty port (the text carries no
port-table context line); when the block is preceded by the port-table
line `80/tcp open http`, the Finding's port is `80/tcp`. -/
theorem C9_scenario :
    elidePorts ["80", "445", "139"] = ["80", "445"] ∧
    parse_vulnerability_details "| http-git:\n|   10.0.0.5:80/.git/\n" =
      [⟨"", "", "http-git", "Git Repository Exposed", "FOUND", [], "Informational",
        "10.0.0.5:80/.git/", "", []⟩] ∧
    parse_vulnerability_details "80/tcp open http\n| http-git:\n|   10.0.0.5:80/.git/\n" =
      [⟨"80/tcp", "http", "http-git", "Git Repository Exposed", "FOUND", [], "Informational",
        "10.0.0.5:80/.git/", "", []⟩] :=
  ⟨by decide, by decide, by decide⟩

/-! ### Lemmas for the scan driver claim -/

theorem scanLoop_spec (oracle : PortOracle) :
    ∀ (ports : List String) (c : String) (v : List String) (d : List Finding) (n : Nat),
    ∃ v2, scanLoop oracle ports (c, v, d, n) =
      (c ++ portsText oracle ports, v2, d ++ portsDetails oracle ports,
        n + countCompleted oracle ports) := by
  intro ports
  induction ports with
  | nil =>
    intro c v d n
    refine ⟨v, ?_⟩
    simp [scanLoop, portsText, portsDetails, countCompleted, str_append_empty]
  | cons p rest ih =>
    intro c v d n
    unfold scanLoop
    cases hop : oracle p with
    | some stdout =>
      dsimp only
      obtain ⟨v2, hv⟩ := ih (c ++ stdout)
        (if parse_vulnerabilities stdout ≠ "" then
          (pySplitSemiSpace (parse_vulnerabilities stdout)).foldl
            (fun acc v0 => if pyStrip v0 ≠ "" then setAdd acc (pyStrip v0) else acc) v
         else v)
        (d ++ parse_vulnerability_details stdout) (n + 1)
      refine ⟨v2, ?_⟩
      rw [hv]
      simp only [portsText, portsDetails, countCompleted, hop, Option.getD_some,
        Option.isSome_some, if_true]
      refine congrArg₂ _ ?_ (congrArg₂ _ rfl (congrArg₂ _ ?_ ?_))
      · rw [str_append_assoc]
      · rw [List.append_assoc]
      · omega
    | none =>
      dsimp only
      obtain ⟨v2, hv⟩ := ih c v d n
      refine ⟨v2, ?_⟩
      rw [hv]
      simp [portsText, portsDetails, countCompleted, hop, str_empty_append]

theorem countCompleted_eq_zero_iff (oracle : PortOracle) :
    ∀ ports : List String,
      countCompleted oracle ports = 0 ↔ ∀ p ∈ ports, oracle p = none := by
  intro ports
  induction ports with
  | nil => simp [countCompleted]
  | cons p rest ih =>
    unfold countCompleted
    constructor
    · intro h q hq
      rcases List.mem_cons.mp hq with heq | hmem
      · subst heq
        cases hop : oracle q with
        | none => rfl
        | some s => rw [hop] at h; simp at h
      · exact ih.mp (by omega) q hmem
    · intro h
      have h1 : oracle p = none := h p (List.mem_cons_self p rest)
      rw [h1]
      simp only [Option.isSome_none, Bool.false_eq_true, if_false]
      have h2 := ih.mpr (fun q hq => h q (List.mem_cons_of_mem p hq))
      omega

theorem scan_vulnerabilities_spec (oracle : PortOracle) (ports0 : List String) :
    (countCompleted oracle (elidePorts ports0) = 0 →
      scan_vulnerabilities oracle ports0 = ⟨none, none, none, none⟩) ∧
    (0 < countCompleted oracle (elidePorts ports0) →
      ∃ vs, scan_vulnerabilities oracle ports0 =
        ⟨some (portsText oracle (elidePorts ports0)), some vs,
          some (joinSep "," (elidePorts ports0)),
          some (mergeDetails (portsDetails oracle (elidePorts ports0)))⟩) := by
  obtain ⟨v2, hv⟩ := scanLoop_spec oracle (elidePorts ports0) "" [] [] 0
  rw [str_empty_append, List.nil_append, Nat.zero_add] at hv
  constructor
  · intro h0
    unfold scan_vulnerabilities
    dsimp only
    rw [hv, h0]
    simp
  · intro hpos
    unfold scan_vulnerabilities
    dsimp only
    rw [hv]
    refine ⟨joinSep "; " (sortStrings v2), ?_⟩
    dsimp only
    rw [if_pos hpos]

/-! ### Claim theorem: C6 -/

/-- C6: the vulnerability scan reports `failed` only when zero of the
host's scanned ports returned any output — a port that timed out or
failed always contributes no text, so `failed` means the oracle returned
`none` for every planned port — and when at least one port completed the
scan reports `success` and persists the combined text of the completed
ports, the merged findings, and a summary row, even when other ports
timed out.  (With NSE scripts unavailable, `execute` returns `failed`
without scanning any port, so the claim is vacuous there; the theorem
covers the scanning path.) -/
theorem C6_partial_success (oracle : PortOracle) (row : Row) :
    ((nmapExecute true oracle row).1 = "failed" →
      ∀ p ∈ elidePorts (pySplitCh ';' (rowGet row "Ports")), oracle p = none) ∧
    ((∃ p ∈ elidePorts (pySplitCh ';' (rowGet row "Ports")), (oracle p).isSome) →
      (nmapExecute true oracle row).1 = "success" ∧
      (nmapExecute true oracle row).2.result =
        some (portsText oracle (elidePorts (pySplitCh ';' (rowGet row "Ports")))) ∧
      (nmapExecute true oracle row).2.details =
        some (mergeDetails
          (portsDetails oracle (elidePorts (pySplitCh ';' (rowGet row "Ports"))))) ∧
      (nmapExecute true oracle row).2.summaryVulns.isSome ∧
      (nmapExecute true oracle row).2.summaryPorts =
        some (joinSep "," (elidePorts (pySplitCh ';' (rowGet row "Ports"))))) := by
  have hex : nmapExecute true oracle row =
      ((if (scan_vulnerabilities oracle (pySplitCh ';' (rowGet row "Ports"))).result.isSome
          then "success" else "failed"),
        scan_vulnerabilities oracle (pySplitCh ';' (rowGet row "Ports"))) := rfl
  obtain ⟨hzero, hpos⟩ :=
    scan_vulnerabilities_spec oracle (pySplitCh ';' (rowGet row "Ports"))
  constructor
  · intro hfail
    rcases Nat.eq_zero_or_pos
        (countCompleted oracle (elidePorts (pySplitCh ';' (rowGet row "Ports")))) with
      h0 | hp
    · exact (countCompleted_eq_zero_iff oracle _).mp h0
    · obtain ⟨vs, hs⟩ := hpos hp
      rw [hex, hs] at hfail
      simp at hfail
  · intro ⟨p, hp, hps⟩
    have hcnt : 0 <
        countCompleted oracle (elidePorts (pySplitCh ';' (rowGet row "Ports"))) := by
      rcases Nat.eq_zero_or_pos
          (countCompleted oracle (elidePorts (pySplitCh ';' (rowGet row "Ports")))) with
        h0 | hgt
      · have := (countCompleted_eq_zero_iff oracle _).mp h0 p hp
        rw [this] at hps
        simp at hps
      · exact hgt
    obtain ⟨vs, hs⟩ := hpos hcnt
    rw [hex, hs]
    exact ⟨by simp, rfl, rfl, by simp, rfl⟩

/-- C6 witness: with the port plan `80;22`, port 80 completing and port
22 timing out, the scan reports success and persists the port-80 text. -/
theorem C6_witness :
    (nmapExecute true
        (fun q => if q = "80" then some "| http-git:\n|   x-y found\n" else none)
        [("Ports", "80;22")]).1 = "success" ∧
    (nmapExecute true
        (fun q => if q = "80" then some "| http-git:\n|   x-y found\n" else none)
        [("Ports", "80;22")]).2.result =
      some (portsText
        (fun q => if q = "80" then some "| http-git:\n|   x-y found\n" else none)
        (elidePorts (pySplitCh ';' (rowGet [("Ports", "80;22")] "Ports")))) :=
  have h := (C6_partial_success
    (fun q => if q = "80" then some "| http-git:\n|   x-y found\n" else none)
    [("Ports", "80;22")]).2 ⟨"80", by decide, by decide⟩
  ⟨h.1, h.2.1⟩

/-! ### Lemmas for the strategy-equivalence claim -/

theorem except_bind_ok {ε α β : Type} (a : α) (f : α → Except ε β) :
    (Except.ok a >>= f : Except ε β) = f a := rfl

theorem runActionBody_other_keys (now : DT) (row : Row) (key : String)
    (res : ExecResult) (k : String) (hk : k ≠ key) :
    rowGet (runActionBody now row key res).row k = rowGet row k := by
  unfold runActionBody
  dsimp only
  repeat' split
  all_goals simp [rowGet_rowSet_ne key k _ hk]

theorem execSuccessCheck_ok_of_wf (cfg : Config) (now : DT) (row : Row) (key : String)
    (res : ExecResult) (hwf : WFStatus (rowGet row key)) :
    ∃ e, execSuccessCheck cfg now row key res = .ok e := by
  unfold execSuccessCheck
  dsimp only
  cases hs : containsSub "success" (rowGet row key) with
  | false =>
    refine ⟨execNoCredsCheck cfg now row key res, ?_⟩
    simp [hs]
  | true =>
    rcases hwf with he | ⟨_, _, _, p1, p2, t, h1, h2, _⟩ | ⟨_, hns, _⟩ | ⟨_, hns, _⟩
    · rw [he] at hs
      exact absurd hs (by decide)
    · simp only [hs, if_true, h1, h2]
      repeat' split
      all_goals exact ⟨_, rfl⟩
    · rw [hns] at hs
      exact absurd hs (by simp)
    · rw [hns] at hs
      exact absurd hs (by simp)

theorem execute_action_wf_ok (cfg : Config) (now : DT) (a : ActionDesc) (ip : String)
    (ports : List String) (row : Row) (key : String) (res : ExecResult)
    (hwf : WFStatus (rowGet row key)) :
    ∃ out, execute_action cfg now a ip ports row key res = .ok out ∧
      ∀ k, k ≠ key → rowGet out.row k = rowGet row k := by
  rcases execute_action_shape cfg now a ip ports row key res with h | h
  · exact ⟨noRun row, h, fun k _ => rfl⟩
  · obtain ⟨e, he⟩ := execSuccessCheck_ok_of_wf cfg now row key res hwf
    refine ⟨e, h.trans he, ?_⟩
    rcases execSuccessCheck_shape cfg now row key res with h2 | h2 | ⟨h2, _⟩
    · rw [h2] at he
      injection he with he2
      rw [← he2]
      exact fun k _ => rfl
    · rw [h2] at he
      injection he with he2
      rw [← he2]
      rcases execNoCredsCheck_cases cfg now row key res with h3 | h3
      · rw [h3]; exact fun k _ => rfl
      · rw [h3]
        rcases execFailedCheck_cases cfg now row key res with h4 | h4
        · rw [h4]; exact fun k _ => rfl
        · rw [h4]
          exact fun k hk => runActionBody_other_keys now row key res k hk
    · rw [h2] at he
      exact absurd he (by simp)

theorem execA_port_noRun (cfg : Config) (now : DT) (a : ActionDesc) (ip : String)
    (ports : List String) (row : Row) (key : String) (res : ExecResult)
    (h : ports.contains (toString a.port) = false) :
    execute_action cfg now a ip ports row key res = .ok (noRun row) := by
  unfold execute_action
  split
  · rfl
  · simp only [h, Bool.not_false, if_true]

theorem parent_gate_noRun (cfg : Config) (now : DT) (a : ActionDesc) (ip : String)
    (ports : List String) (row : Row) (key : String) (res : ExecResult) (p : String)
    (hpar : a.b_parent_action = some p) (hp : p ≠ "")
    (hsucc : containsSub "success" (rowGet row p) = false) :
    execute_action cfg now a ip ports row key res = .ok (noRun row) := by
  unfold execute_action
  split
  · rfl
  · split
    · rfl
    · rw [hpar]
      dsimp only
      rw [if_pos ⟨hp, by simp [hsucc]⟩]

theorem execute_action_to_noCreds (cfg : Config) (now : DT) (a : ActionDesc)
    (ip : String) (ports : List String) (row : Row) (key : String) (res : ExecResult)
    (hs : containsSub "success" (rowGet row key) = false)
    (hE : execNoCredsCheck cfg now row key res = noRun row) :
    execute_action cfg now a ip ports row key res = .ok (noRun row) := by
  rcases execute_action_shape cfg now a ip ports row key res with h | h
  · exact h
  · rw [h]
    unfold execSuccessCheck
    dsimp only
    simp [hs, hE]

theorem execA_success_noretry_noRun (cfg : Config) (now : DT) (a : ActionDesc)
    (ip : String) (ports : List String) (row : Row) (key : String) (res : ExecResult)
    (hs : containsSub "success" (rowGet row key) = true)
    (hr : cfg.retry_success_actions = false) :
    execute_action cfg now a ip ports row key res = .ok (noRun row) := by
  rcases execute_action_shape cfg now a ip ports row key res with h | h
  · exact h
  · rw [h]
    unfold execSuccessCheck
    dsimp only
    simp [hs, hr]

theorem execNoCreds_noRun_of_failed_noretry (cfg : Config) (now : DT) (row : Row)
    (key : String) (res : ExecResult)
    (hf : containsSub "failed" (rowGet row key) = true)
    (hr : cfg.retry_failed_actions = false) :
    execNoCredsCheck cfg now row key res = noRun row := by
  unfold execNoCredsCheck
  split
  · rfl
  · unfold execFailedCheck
    simp [hf, hr]

theorem execNoCreds_noRun_of_failed_max (cfg : Config) (now : DT) (row : Row)
    (key : String) (res : ExecResult) (p1 p2 p3 : String) (n : Int) (t : DT)
    (hf : containsSub "failed" (rowGet row key) = true)
    (h1 : (pySplitCh '_' (rowGet row key))[1]? = some p1)
    (hn : pyInt? p1 = some n)
    (h2 : (pySplitCh '_' (rowGet row key))[2]? = some p2)
    (h3 : (pySplitCh '_' (rowGet row key))[3]? = some p3)
    (ht : strptimeYmdHms? (p2 ++ "_" ++ p3) = some t)
    (hmax : n ≥ cfg.max_failed_retries) :
    execNoCredsCheck cfg now row key res = noRun row := by
  unfold execNoCredsCheck
  split
  · rfl
  · unfold execFailedCheck
    simp only [hf, if_true, h1, hn, h2, h3, ht]
    cases hr : cfg.retry_failed_actions with
    | false => simp [hr]
    | true =>
      simp only [hr, Bool.not_true, Bool.false_eq_true, if_false]
      rw [if_pos hmax]

theorem terminal_noRun (cfg : Config) (now : DT) (a : ActionDesc) (ip : String)
    (ports : List String) (row : Row) (res : ExecResult)
    (hwf : WFStatus (rowGet row a.action_name))
    (ht : exhaustedStatusTerminal cfg row a = true) :
    execute_action cfg now a ip ports row a.action_name res = .ok (noRun row) := by
  unfold exhaustedStatusTerminal at ht
  dsimp only at ht
  by_cases he : (rowGet row a.action_name == "") = true
  · rw [if_pos he] at ht
    exact absurd ht (by simp)
  · rw [if_neg he] at ht
    cases hnc : containsSub "no_creds" (rowGet row a.action_name) with
    | true =>
      have hs : containsSub "success" (rowGet row a.action_name) = false := by
        rcases hwf with h0 | ⟨_, h0, _⟩ | ⟨_, h0, _⟩ | ⟨_, _, h0, _⟩
        · rw [h0] at hnc; exact absurd hnc (by decide)
        · rw [h0] at hnc; exact absurd hnc (by simp)
        · exact h0
        · rw [h0] at hnc; exact absurd hnc (by simp)
      exact execute_action_to_noCreds cfg now a ip ports row a.action_name res hs
        (execNoCredsCheck_of_no_creds cfg now row a.action_name res hnc)
    | false =>
      rw [hnc] at ht
      simp only [Bool.false_eq_true, if_false] at ht
      by_cases hsx : containsSub "success" (rowGet row a.action_name) = true ∧
          (!cfg.retry_success_actions) = true
      · exact execA_success_noretry_noRun cfg now a ip ports row a.action_name res hsx.1
          (by simpa using hsx.2)
      · rw [if_neg hsx] at ht
        cases hff : containsSub "failed" (rowGet row a.action_name) with
        | false =>
          rw [hff] at ht
          simp at ht
        | true =>
          rw [hff] at ht
          simp only [if_true] at ht
          rcases hwf with h0 | ⟨_, _, h0, _⟩ | ⟨_, _, h0⟩ |
            ⟨_, hs, _, p1, n, p2, p3, t, hp1, hn, hp2, hp3, htt⟩
          · rw [h0] at hff; exact absurd hff (by decide)
          · rw [h0] at hff; exact absurd hff (by simp)
          · rw [h0] at hff; exact absurd hff (by simp)
          · rw [hp1] at ht
            dsimp only at ht
            rw [hn] at ht
            dsimp only at ht
            by_cases hm : n ≥ cfg.max_failed_retries
            · exact execute_action_to_noCreds cfg now a ip ports row a.action_name res hs
                (execNoCreds_noRun_of_failed_max cfg now row a.action_name res p1 p2 p3
                  n t hff hp1 hn hp2 hp3 htt hm)
            · rw [if_neg hm] at ht
              have hr : cfg.retry_failed_actions = false := by
                cases hr2 : cfg.retry_failed_actions with
                | false => rfl
                | true => rw [hr2] at ht; exact absurd ht (by simp)
              exact execute_action_to_noCreds cfg now a ip ports row a.action_name res hs
                (execNoCreds_noRun_of_failed_noretry cfg now row a.action_name res hff hr)

theorem exhausted_actions_noRun (cfg : Config) (now : DT) (oracle : ExecOracle)
    (ip : String) (ports : List String) (row : Row) :
    ∀ acts : List ActionDesc,
      (∀ a ∈ acts, WFStatus (rowGet row a.action_name)) →
      host_fully_exhausted cfg row ports acts = true →
      ∀ a ∈ acts, execute_action cfg now a ip ports row a.action_name
        (oracle ip a.action_name) = .ok (noRun row) := by
  intro acts
  induction acts with
  | nil => intro _ _ a ha; exact absurd ha (List.not_mem_nil a)
  | cons a0 rest ih =>
    intro hwf hex a ha
    have hwfr : ∀ b ∈ rest, WFStatus (rowGet row b.action_name) :=
      fun b hb => hwf b (List.mem_cons_of_mem a0 hb)
    unfold host_fully_exhausted at hex
    by_cases hport : (ports.contains (toString a0.port)) = true
    · simp only [hport, Bool.not_true, Bool.false_eq_true, if_false] at hex
      cases hpar : a0.b_parent_action with
      | some p =>
        rw [hpar] at hex
        dsimp only at hex
        by_cases hgate : p ≠ "" ∧ (!containsSub "success" (rowGet row p)) = true
        · rw [if_pos hgate] at hex
          rcases List.mem_cons.mp ha with heq | hm
          · subst heq
            exact parent_gate_noRun cfg now a ip ports row a.action_name
              (oracle ip a.action_name) p hpar hgate.1 (by simpa using hgate.2)
          · exact ih hwfr hex a hm
        · rw [if_neg hgate] at hex
          by_cases hterm : exhaustedStatusTerminal cfg row a0 = true
          · rw [if_pos hterm] at hex
            rcases List.mem_cons.mp ha with heq | hm
            · subst heq
              exact terminal_noRun cfg now a ip ports row (oracle ip a.action_name)
                (hwf a (List.mem_cons_self a rest)) hterm
            · exact ih hwfr hex a hm
          · rw [if_neg hterm] at hex
            exact absurd hex (by simp)
      | none =>
        rw [hpar] at hex
        dsimp only at hex
        by_cases hterm : exhaustedStatusTerminal cfg row a0 = true
        · rw [if_pos hterm] at hex
          rcases List.mem_cons.mp ha with heq | hm
          · subst heq
            exact terminal_noRun cfg now a ip ports row (oracle ip a.action_name)
              (hwf a (List.mem_cons_self a rest)) hterm
          · exact ih hwfr hex a hm
        · rw [if_neg hterm] at hex
          exact absurd hex (by simp)
    · simp only [hport] at hex
      rcases List.mem_cons.mp ha with heq | hm
      · subst heq
        exact execA_port_noRun cfg now a ip ports row a.action_name
          (oracle ip a.action_name) (by simpa using hport)
      · simp only [Bool.not_false, if_true] at hex
        exact ih hwfr hex a hm

theorem actionsPass_noop (cfg : Config) (now : DT) (oracle : ExecOracle) (cp : Bool)
    (ip : String) (ports : List String) :
    ∀ (acts : List ActionDesc) (row : Row),
      (∀ a ∈ acts, execute_action cfg now a ip ports row a.action_name
        (oracle ip a.action_name) = .ok (noRun row)) →
      actionsPass cfg now oracle cp ip ports acts row = .ok (row, []) := by
  intro acts
  induction acts with
  | nil => intro row _; rfl
  | cons a rest ih =>
    intro row h
    unfold actionsPass
    split
    · exact ih row (fun b hb => h b (List.mem_cons_of_mem a hb))
    · have ha := h a (List.mem_cons_self a rest)
      have hrest := ih row (fun b hb => h b (List.mem_cons_of_mem a hb))
      rw [ha, except_bind_ok]
      dsimp only [noRun]
      rw [hrest, except_bind_ok]
      rfl

theorem hostPhases_noop (cfg : Config) (now : DT) (oracle : ExecOracle)
    (acts : List ActionDesc) (ip : String) (ports : List String) (row : Row)
    (h1 : actionsPass cfg now oracle false ip ports acts row = .ok (row, []))
    (h2 : actionsPass cfg now oracle true ip ports acts row = .ok (row, [])) :
    hostPhases cfg now oracle acts ip ports row = .ok (row, []) := by
  unfold hostPhases
  cases hb : cfg.brute_force_running <;> cases hf : cfg.file_steal_running <;>
    simp [hb, hf, h1, h2, except_bind_ok]

theorem name_not_in_filter (acts : List ActionDesc)
    (hnd : (acts.map ActionDesc.action_name).Nodup) (a : ActionDesc) (ha : a ∈ acts)
    (cp : Bool) (hcp : (a.b_parent_action.isSome == cp) = false) :
    a.action_name ∉
      (acts.filter (fun x => x.b_parent_action.isSome == cp)).map
        ActionDesc.action_name := by
  intro hmem
  obtain ⟨b, hb, hbeq⟩ := List.mem_map.mp hmem
  have hbf := List.mem_filter.mp hb
  have hba : b = a := List.inj_on_of_nodup_map hnd hbf.1 ha hbeq
  rw [hba] at hbf
  rw [hbf.2] at hcp
  exact absurd hcp (by simp)

theorem key_not_in_filter_names (acts : List ActionDesc) (k : String)
    (hk : ∀ a ∈ acts, a.action_name ≠ k) (cp : Bool) :
    k ∉ (acts.filter (fun x => x.b_parent_action.isSome == cp)).map
        ActionDesc.action_name := by
  intro hmem
  obtain ⟨b, hb, hbeq⟩ := List.mem_map.mp hmem
  exact hk b (List.mem_filter.mp hb).1 hbeq

theorem actionsPass_wf (cfg : Config) (now : DT) (oracle : ExecOracle) (cp : Bool)
    (ip : String) (ports : List String) :
    ∀ (acts : List ActionDesc) (row : Row),
      (List.map ActionDesc.action_name acts).Nodup →
      (∀ a ∈ acts, (a.b_parent_action.isSome == cp) = true →
        WFStatus (rowGet row a.action_name)) →
      ∃ row2 ns, actionsPass cfg now oracle cp ip ports acts row = .ok (row2, ns) ∧
        ∀ k, k ∉ (acts.filter (fun x => x.b_parent_action.isSome == cp)).map
            ActionDesc.action_name →
          rowGet row2 k = rowGet row k := by
  intro acts
  induction acts with
  | nil => intro row _ _; exact ⟨row, [], rfl, fun k _ => rfl⟩
  | cons a rest ih =>
    intro row hnd hwf
    have hndr : (List.map ActionDesc.action_name rest).Nodup := (List.nodup_cons.mp hnd).2
    unfold actionsPass
    by_cases hfil : (a.b_parent_action.isSome != cp) = true
    · rw [if_pos hfil]
      obtain ⟨row2, ns, hrec, hpres⟩ := ih row hndr
        (fun b hb hbc => hwf b (List.mem_cons_of_mem a hb) hbc)
      have hpa : (a.b_parent_action.isSome == cp) = false := by
        simpa [bne] using hfil
      refine ⟨row2, ns, hrec, fun k hkm => hpres k ?_⟩
      rwa [List.filter_cons_of_neg (by simp [hpa])] at hkm
    · rw [if_neg hfil]
      have hpa : (a.b_parent_action.isSome == cp) = true := by
        simpa [bne] using hfil
      have hwfa := hwf a (List.mem_cons_self a rest) hpa
      obtain ⟨out, hout, houtpres⟩ := execute_action_wf_ok cfg now a ip ports row
        a.action_name (oracle ip a.action_name) hwfa
      have hnin : a.action_name ∉ rest.map ActionDesc.action_name :=
        (List.nodup_cons.mp hnd).1
      obtain ⟨row2, ns, hrec, hpres⟩ := ih out.row hndr (fun b hb hbc => by
        have hbne : b.action_name ≠ a.action_name := fun he =>
          hnin (he ▸ List.mem_map_of_mem ActionDesc.action_name hb)
        rw [houtpres b.action_name hbne]
        exact hwf b (List.mem_cons_of_mem a hb) hbc)
      refine ⟨row2, (if out.ran then [a.action_name] else []) ++ ns, ?_, ?_⟩
      · rw [hout, except_bind_ok]
        dsimp only
        rw [hrec, except_bind_ok]
      · intro k hkm
        rw [List.filter_cons_of_pos (by simp [hpa])] at hkm
        simp only [List.map_cons, List.mem_cons, not_or] at hkm
        rw [hpres k hkm.2, houtpres k (fun he => hkm.1 he)]

theorem hostPhases_wf (cfg : Config) (now : DT) (oracle : ExecOracle)
    (acts : List ActionDesc) (ip : String) (ports : List String) (row : Row)
    (hnd : (acts.map ActionDesc.action_name).Nodup)
    (hwf : ∀ a ∈ acts, WFStatus (rowGet row a.action_name)) :
    ∃ row2 ns, hostPhases cfg now oracle acts ip ports row = .ok (row2, ns) ∧
      ∀ k, (∀ a ∈ acts, a.action_name ≠ k) → rowGet row2 k = rowGet row k := by
  obtain ⟨r1, n1, h1, pres1⟩ := actionsPass_wf cfg now oracle false ip ports acts row
    hnd (fun a ha _ => hwf a ha)
  have hwf2 : ∀ a ∈ acts, (a.b_parent_action.isSome == true) = true →
      WFStatus (rowGet r1 a.action_name) := by
    intro a ha hac
    rw [pres1 a.action_name (name_not_in_filter acts hnd a ha false (by
      simp only [beq_iff_eq] at hac ⊢
      simp [hac]))]
    exact hwf a ha
  obtain ⟨r2, n2, h2, pres2⟩ := actionsPass_wf cfg now oracle true ip ports acts r1
    hnd hwf2
  unfold hostPhases
  cases hb : cfg.brute_force_running with
  | false =>
    cases hf : cfg.file_steal_running with
    | false => exact ⟨row, [], by simp [hb, hf, except_bind_ok], fun k _ => rfl⟩
    | true =>
      -- phase 2 runs on the unmodified row
      obtain ⟨r2b, n2b, h2b, pres2b⟩ := actionsPass_wf cfg now oracle true ip ports
        acts row hnd (fun a ha _ => hwf a ha)
      refine ⟨r2b, n2b, by simp [hb, hf, h2b, except_bind_ok], fun k hk => ?_⟩
      exact pres2b k (key_not_in_filter_names acts k (fun a ha => hk a ha) true)
  | true =>
    cases hf : cfg.file_steal_running with
    | false =>
      refine ⟨r1, n1, by simp [hb, hf, h1, except_bind_ok], fun k hk => ?_⟩
      exact pres1 k (key_not_in_filter_names acts k (fun a ha => hk a ha) false)
    | true =>
      refine ⟨r2, n1 ++ n2, by simp [hb, hf, h1, h2, except_bind_ok], fun k hk => ?_⟩
      rw [pres2 k (key_not_in_filter_names acts k (fun a ha => hk a ha) true)]
      exact pres1 k (key_not_in_filter_names acts k (fun a ha => hk a ha) false)

theorem perm_interleave {α : Type} (a x b y : List α) :
    ((a ++ x) ++ (b ++ y)).Perm ((a ++ b) ++ (x ++ y)) := by
  have h : (x ++ (b ++ y)).Perm (b ++ (x ++ y)) := by
    rw [← List.append_assoc x b y, ← List.append_assoc b x y]
    exact List.Perm.append_right y List.perm_append_comm
  have h2 := List.Perm.append_left a h
  simpa [List.append_assoc] using h2

theorem spread_eq_perHost (cfg : Config) (now : DT) (oracle : ExecOracle)
    (vOracle : String → ExecResult) (acts : List ActionDesc)
    (hnd : (acts.map ActionDesc.action_name).Nodup)
    (hAlive : ∀ a ∈ acts, a.action_name ≠ "Alive") :
    ∀ (t : Table) (i : Nat),
      (∀ row ∈ t, ∀ a ∈ acts, WFStatus (rowGet row a.action_name)) →
      ∃ t1 eA t2 eV eH,
        process_alive_ips cfg now oracle acts i t = .ok (t1, eA) ∧
        run_vuln_scans cfg now vOracle i t1 = (t2, eV) ∧
        process_per_host cfg now oracle vOracle acts i t = .ok (t2, eH) ∧
        (eA ++ eV).Perm eH := by
  intro t
  induction t with
  | nil =>
    intro i _
    exact ⟨[], [], [], [], [], rfl, rfl, rfl, List.Perm.refl []⟩
  | cons row rest ih =>
    intro i hwf
    obtain ⟨t1r, eAr, t2r, eVr, eHr, hA, hV, hH, hperm⟩ := ih (i + 1)
      (fun r hr => hwf r (List.mem_cons_of_mem row hr))
    have hwfrow := hwf row (List.mem_cons_self row rest)
    by_cases halive : (rowGet row "Alive" != "1") = true
    · refine ⟨row :: t1r, eAr, row :: t2r, eVr, eHr, ?_, ?_, ?_, hperm⟩
      · unfold process_alive_ips
        rw [if_pos halive, hA, except_bind_ok]
      · unfold run_vuln_scans
        rw [if_pos halive, hV]
      · unfold process_per_host
        rw [if_pos halive, hH, except_bind_ok]
    · by_cases hex :
          host_fully_exhausted cfg row (pySplitCh ';' (rowGet row "Ports")) acts = true
      · have hnoop := exhausted_actions_noRun cfg now oracle (rowGet row "IPs")
          (pySplitCh ';' (rowGet row "Ports")) row acts hwfrow hex
        have h1 := actionsPass_noop cfg now oracle false (rowGet row "IPs")
          (pySplitCh ';' (rowGet row "Ports")) acts row hnoop
        have h2 := actionsPass_noop cfg now oracle true (rowGet row "IPs")
          (pySplitCh ';' (rowGet row "Ports")) acts row hnoop
        have hhp := hostPhases_noop cfg now oracle acts (rowGet row "IPs")
          (pySplitCh ';' (rowGet row "Ports")) row h1 h2
        refine ⟨row :: t1r, eAr,
          (run_vuln_scan_single cfg now (vOracle (rowGet row "IPs")) row).row :: t2r,
          (if (run_vuln_scan_single cfg now (vOracle (rowGet row "IPs")) row).ran then
            [(i, "NmapVulnScanner")] else []) ++ eVr,
          (if (run_vuln_scan_single cfg now (vOracle (rowGet row "IPs")) row).ran then
            [(i, "NmapVulnScanner")] else []) ++ eHr, ?_, ?_, ?_, ?_⟩
        · unfold process_alive_ips
          rw [if_neg halive]
          dsimp only
          rw [if_pos hex, hA, except_bind_ok]
        · unfold run_vuln_scans
          rw [if_neg halive]
          dsimp only
          rw [hV]
        · unfold process_per_host
          rw [if_neg halive]
          dsimp only
          rw [hhp, except_bind_ok]
          dsimp only
          rw [hH, except_bind_ok]
          simp
        · have h0 := perm_interleave ([] : List (Nat × String)) eAr
            (if (run_vuln_scan_single cfg now (vOracle (rowGet row "IPs")) row).ran then
              [(i, "NmapVulnScanner")] else []) eVr
          simp only [List.nil_append] at h0
          exact h0.trans (List.Perm.append_left _ hperm)
      · obtain ⟨row2, ns, hhp, hpres⟩ := hostPhases_wf cfg now oracle acts
          (rowGet row "IPs") (pySplitCh ';' (rowGet row "Ports")) row hnd hwfrow
        have halive2 : rowGet row2 "Alive" = rowGet row "Alive" :=
          hpres "Alive" hAlive
        have halive2f : ¬((rowGet row2 "Alive" != "1") = true) := by
          rw [halive2]; exact halive
        refine ⟨row2 :: t1r, ns.map (fun n => (i, n)) ++ eAr,
          (run_vuln_scan_single cfg now (vOracle (rowGet row2 "IPs")) row2).row :: t2r,
          (if (run_vuln_scan_single cfg now (vOracle (rowGet row2 "IPs")) row2).ran then
            [(i, "NmapVulnScanner")] else []) ++ eVr,
          ns.map (fun n => (i, n)) ++
            ((if (run_vuln_scan_single cfg now (vOracle (rowGet row2 "IPs")) row2).ran then
              [(i, "NmapVulnScanner")] else []) ++ eHr), ?_, ?_, ?_, ?_⟩
        · unfold process_alive_ips
          rw [if_neg halive]
          dsimp only
          rw [if_neg hex, hhp, except_bind_ok]
          dsimp only
          rw [hA, except_bind_ok]
        · unfold run_vuln_scans
          rw [if_neg halive2f]
          dsimp only
          rw [hV]
        · unfold process_per_host
          rw [if_neg halive]
          dsimp only
          rw [hhp, except_bind_ok]
          dsimp only
          rw [hH, except_bind_ok]
          simp [List.append_assoc]
        · have h0 := perm_interleave (ns.map (fun n => (i, n))) eAr
            (if (run_vuln_scan_single cfg now (vOracle (rowGet row2 "IPs")) row2).ran then
              [(i, "NmapVulnScanner")] else []) eVr
          refine h0.trans ?_
          rw [List.append_assoc]
          exact List.Perm.append_left _ (List.Perm.append_left _ hperm)

theorem except_bind_error {ε α β : Type} (e : ε) (f : α → Except ε β) :
    (Except.error e >>= f : Except ε β) = .error e := rfl

theorem phaseRowF_dead (cfg : Config) (now : DT) (oracle : ExecOracle)
    (acts : List ActionDesc) (flag cp : Bool) (row : Row)
    (h : (rowGet row "Alive" != "1") = true) :
    phaseRowF cfg now oracle acts flag cp row = .ok (row, []) := by
  unfold phaseRowF
  cases flag <;> simp [h]

theorem phaseRowF_alive (cfg : Config) (now : DT) (oracle : ExecOracle)
    (acts : List ActionDesc) (flag cp : Bool) (row : Row)
    (halive : ¬((rowGet row "Alive" != "1") = true)) :
    phaseRowF cfg now oracle acts flag cp row =
      if flag then
        actionsPass cfg now oracle cp (rowGet row "IPs")
          (pySplitCh ';' (rowGet row "Ports")) acts row
      else .ok (row, []) := by
  unfold phaseRowF
  cases flag <;> simp [halive]

theorem phaseRowF_wf (cfg : Config) (now : DT) (oracle : ExecOracle)
    (acts : List ActionDesc) (flag cp : Bool) (row : Row)
    (hnd : (acts.map ActionDesc.action_name).Nodup)
    (hwf : ∀ a ∈ acts, (a.b_parent_action.isSome == cp) = true →
      WFStatus (rowGet row a.action_name)) :
    ∃ r2 ns, phaseRowF cfg now oracle acts flag cp row = .ok (r2, ns) ∧
      ∀ k, k ∉ (acts.filter (fun x => x.b_parent_action.isSome == cp)).map
          ActionDesc.action_name →
        rowGet r2 k = rowGet row k := by
  cases flag with
  | false => exact ⟨row, [], by simp [phaseRowF], fun _ _ => rfl⟩
  | true =>
    by_cases h : (rowGet row "Alive" != "1") = true
    · exact ⟨row, [], by simp [phaseRowF, h], fun _ _ => rfl⟩
    · obtain ⟨r2, ns, hp, hpres⟩ := actionsPass_wf cfg now oracle cp (rowGet row "IPs")
        (pySplitCh ';' (rowGet row "Ports")) acts row hnd hwf
      exact ⟨r2, ns, by simp [phaseRowF, h, hp], hpres⟩

theorem phasePassF_nil (cfg : Config) (now : DT) (oracle : ExecOracle)
    (acts : List ActionDesc) (flag cp : Bool) (i : Nat) :
    phasePassF cfg now oracle acts flag cp i [] = .ok ([], []) := by
  unfold phasePassF phasePass
  cases flag <;> simp

theorem phasePassF_cons (cfg : Config) (now : DT) (oracle : ExecOracle)
    (acts : List ActionDesc) (flag cp : Bool) (i : Nat) (row : Row) (rest : Table) :
    phasePassF cfg now oracle acts flag cp i (row :: rest) =
      (do
        let (r2, ns) ← phaseRowF cfg now oracle acts flag cp row
        let (t2, ex) ← phasePassF cfg now oracle acts flag cp (i + 1) rest
        .ok (r2 :: t2, ns.map (fun n => (i, n)) ++ ex)) := by
  cases flag with
  | false => simp [phasePassF, phaseRowF, except_bind_ok]
  | true =>
    by_cases h : (rowGet row "Alive" != "1") = true
    · cases hr : phasePass cfg now oracle acts cp (i + 1) rest with
      | error e =>
        simp [phasePassF, phasePass, phaseRowF, h, hr, except_bind_ok, except_bind_error]
      | ok p =>
        rcases p with ⟨t2, ex⟩
        simp [phasePassF, phasePass, phaseRowF, h, hr, except_bind_ok]
    · cases ha : actionsPass cfg now oracle cp (rowGet row "IPs")
          (pySplitCh ';' (rowGet row "Ports")) acts row with
      | error e =>
        simp [phasePassF, phasePass, phaseRowF, h, ha, except_bind_error]
      | ok p =>
        rcases p with ⟨r2, ns⟩
        cases hr : phasePass cfg now oracle acts cp (i + 1) rest with
        | error e =>
          simp [phasePassF, phasePass, phaseRowF, h, ha, hr, except_bind_ok,
            except_bind_error]
        | ok q =>
          rcases q with ⟨t2, ex⟩
          simp [phasePassF, phasePass, phaseRowF, h, ha, hr, except_bind_ok]

theorem hostPhases_as_phaseRows (cfg : Config) (now : DT) (oracle : ExecOracle)
    (acts : List ActionDesc) (row r1 : Row) (n1 : List String) (r2 : Row)
    (n2 : List String)
    (halive : ¬((rowGet row "Alive" != "1") = true))
    (hp1 : phaseRowF cfg now oracle acts cfg.brute_force_running false row = .ok (r1, n1))
    (halive1 : rowGet r1 "Alive" = rowGet row "Alive")
    (hI1 : rowGet r1 "IPs" = rowGet row "IPs")
    (hP1 : rowGet r1 "Ports" = rowGet row "Ports")
    (hp2 : phaseRowF cfg now oracle acts cfg.file_steal_running true r1 = .ok (r2, n2)) :
    hostPhases cfg now oracle acts (rowGet row "IPs")
      (pySplitCh ';' (rowGet row "Ports")) row = .ok (r2, n1 ++ n2) := by
  have halive1f : ¬((rowGet r1 "Alive" != "1") = true) := by
    rw [halive1]; exact halive
  rw [phaseRowF_alive cfg now oracle acts _ false row halive] at hp1
  rw [phaseRowF_alive cfg now oracle acts _ true r1 halive1f, hI1, hP1] at hp2
  unfold hostPhases
  cases hb : cfg.brute_force_running with
  | false =>
    rw [hb] at hp1
    simp only [Bool.false_eq_true, if_false] at hp1
    injection hp1 with hp1e
    rw [Prod.mk.injEq] at hp1e
    obtain ⟨he1, he2⟩ := hp1e
    subst he1
    cases hf : cfg.file_steal_running with
    | false =>
      rw [hf] at hp2
      simp only [Bool.false_eq_true, if_false] at hp2
      injection hp2 with hp2e
      rw [Prod.mk.injEq] at hp2e
      obtain ⟨hg1, hg2⟩ := hp2e
      subst hg1
      simp [hb, hf, except_bind_ok, ← he2, ← hg2]
    | true =>
      rw [hf] at hp2
      simp only [if_true] at hp2
      simp [hb, hf, except_bind_ok, hp2, ← he2]
  | true =>
    rw [hb] at hp1
    simp only [if_true] at hp1
    cases hf : cfg.file_steal_running with
    | false =>
      rw [hf] at hp2
      simp only [Bool.false_eq_true, if_false] at hp2
      injection hp2 with hp2e
      rw [Prod.mk.injEq] at hp2e
      obtain ⟨hg1, hg2⟩ := hp2e
      subst hg1
      simp [hb, hf, except_bind_ok, hp1, ← hg2]
    | true =>
      rw [hf] at hp2
      simp only [if_true] at hp2
      simp [hb, hf, except_bind_ok, hp1, hp2]

theorem perPhase_eq_perHost (cfg : Config) (now : DT) (oracle : ExecOracle)
    (vOracle : String → ExecResult) (acts : List ActionDesc)
    (hnd : (acts.map ActionDesc.action_name).Nodup)
    (hAlive : ∀ a ∈ acts, a.action_name ≠ "Alive")
    (hIPs : ∀ a ∈ acts, a.action_name ≠ "IPs")
    (hPorts : ∀ a ∈ acts, a.action_name ≠ "Ports") :
    ∀ (t : Table) (i : Nat),
      (∀ row ∈ t, ∀ a ∈ acts, WFStatus (rowGet row a.action_name)) →
      ∃ tA eA tB eB tC eC eH,
        phasePassF cfg now oracle acts cfg.brute_force_running false i t = .ok (tA, eA) ∧
        phasePassF cfg now oracle acts cfg.file_steal_running true i tA = .ok (tB, eB) ∧
        run_vuln_scans cfg now vOracle i tB = (tC, eC) ∧
        process_per_host cfg now oracle vOracle acts i t = .ok (tC, eH) ∧
        ((eA ++ eB) ++ eC).Perm eH := by
  intro t
  induction t with
  | nil =>
    intro i _
    exact ⟨[], [], [], [], [], [], [], phasePassF_nil cfg now oracle acts _ false i,
      phasePassF_nil cfg now oracle acts _ true i, rfl, rfl, List.Perm.refl []⟩
  | cons row rest ih =>
    intro i hwf
    obtain ⟨tAr, eAr, tBr, eBr, tCr, eCr, eHr, hAr, hBr, hCr, hHr, hperm⟩ :=
      ih (i + 1) (fun r hr => hwf r (List.mem_cons_of_mem row hr))
    have hwfrow := hwf row (List.mem_cons_self row rest)
    by_cases halive : (rowGet row "Alive" != "1") = true
    · refine ⟨row :: tAr, eAr, row :: tBr, eBr, row :: tCr, eCr, eHr,
        ?_, ?_, ?_, ?_, hperm⟩
      · rw [phasePassF_cons, phaseRowF_dead cfg now oracle acts _ false row halive,
          except_bind_ok]
        dsimp only
        rw [hAr, except_bind_ok]
        simp
      · rw [phasePassF_cons, phaseRowF_dead cfg now oracle acts _ true row halive,
          except_bind_ok]
        dsimp only
        rw [hBr, except_bind_ok]
        simp
      · unfold run_vuln_scans
        rw [if_pos halive, hCr]
      · unfold process_per_host
        rw [if_pos halive, hHr, except_bind_ok]
    · obtain ⟨r1, n1, hpr1, pres1⟩ := phaseRowF_wf cfg now oracle acts
        cfg.brute_force_running false row hnd (fun a ha _ => hwfrow a ha)
      have halive1 : rowGet r1 "Alive" = rowGet row "Alive" :=
        pres1 "Alive" (key_not_in_filter_names acts "Alive" (fun a ha => hAlive a ha) false)
      have hI1 : rowGet r1 "IPs" = rowGet row "IPs" :=
        pres1 "IPs" (key_not_in_filter_names acts "IPs" (fun a ha => hIPs a ha) false)
      have hP1 : rowGet r1 "Ports" = rowGet row "Ports" :=
        pres1 "Ports" (key_not_in_filter_names acts "Ports" (fun a ha => hPorts a ha) false)
      have hwf1 : ∀ a ∈ acts, (a.b_parent_action.isSome == true) = true →
          WFStatus (rowGet r1 a.action_name) := by
        intro a ha hac
        rw [pres1 a.action_name (name_not_in_filter acts hnd a ha false (by
          simp only [beq_iff_eq] at hac ⊢
          simp [hac]))]
        exact hwfrow a ha
      obtain ⟨r2, n2, hpr2, pres2⟩ := phaseRowF_wf cfg now oracle acts
        cfg.file_steal_running true r1 hnd hwf1
      have halive2 : rowGet r2 "Alive" = rowGet row "Alive" := by
        rw [pres2 "Alive"
          (key_not_in_filter_names acts "Alive" (fun a ha => hAlive a ha) true), halive1]
      have halive2f : ¬((rowGet r2 "Alive" != "1") = true) := by
        rw [halive2]; exact halive
      have hhp := hostPhases_as_phaseRows cfg now oracle acts row r1 n1 r2 n2
        halive hpr1 halive1 hI1 hP1 hpr2
      refine ⟨r1 :: tAr, List.map (fun n => (i, n)) n1 ++ eAr,
        r2 :: tBr, List.map (fun n => (i, n)) n2 ++ eBr,
        (run_vuln_scan_single cfg now (vOracle (rowGet r2 "IPs")) r2).row :: tCr,
        (if (run_vuln_scan_single cfg now (vOracle (rowGet r2 "IPs")) r2).ran then
          [(i, "NmapVulnScanner")] else []) ++ eCr,
        List.map (fun n => (i, n)) (n1 ++ n2) ++
          ((if (run_vuln_scan_single cfg now (vOracle (rowGet r2 "IPs")) r2).ran then
            [(i, "NmapVulnScanner")] else []) ++ eHr), ?_, ?_, ?_, ?_, ?_⟩
      · rw [phasePassF_cons, hpr1, except_bind_ok]
        dsimp only
        rw [hAr, except_bind_ok]
      · rw [phasePassF_cons, hpr2, except_bind_ok]
        dsimp only
        rw [hBr, except_bind_ok]
      · unfold run_vuln_scans
        rw [if_neg halive2f]
        dsimp only
        rw [hCr]
      · unfold process_per_host
        rw [if_neg halive]
        dsimp only
        rw [hhp, except_bind_ok]
        dsimp only
        rw [hHr, except_bind_ok]
        simp [List.append_assoc]
      · rw [List.map_append]
        refine (List.Perm.append_right _ (perm_interleave
          (List.map (fun n => (i, n)) n1) eAr
          (List.map (fun n => (i, n)) n2) eBr)).trans ?_
        refine (perm_interleave _ (eAr ++ eBr)
          (if (run_vuln_scan_single cfg now (vOracle (rowGet r2 "IPs")) r2).ran then
            [(i, "NmapVulnScanner")] else []) eCr).trans ?_
        rw [List.append_assoc]
        exact List.Perm.append_left _ (List.Perm.append_left _ hperm)

/-- C5 counterexample: as stated the claim fails.  With retry of failed
actions enabled and a legacy status `failed_20240101_000000` (timestamp
written where `_host_fully_exhausted` expects the failure count), the
spread strategy skips the host as fully exhausted while the per-host
strategy, which never consults `_host_fully_exhausted`, executes the
action: the two strategies run different (host, action) sets on the same
table, configuration and clock. -/
theorem C5_counterexample :
    (0, "ActionX") ∈
      execPairsOf
        (process_per_host ⟨false, 0, true, 0, 3, true, false, false, none⟩
          ⟨2024, 2, 1, 0, 0, 0⟩ (fun _ _ => .ok "failed") (fun _ => .ok "failed")
          [⟨"ActionX", 80, none⟩] 0
          [[("MAC Address", "AA"), ("IPs", "10.0.0.2"), ("Hostnames", "h"),
            ("Alive", "1"), ("Ports", "80"),
            ("ActionX", "failed_20240101_000000")]]) ∧
    (0, "ActionX") ∉
      execPairsOf
        (spreadCycle ⟨false, 0, true, 0, 3, true, false, false, none⟩
          ⟨2024, 2, 1, 0, 0, 0⟩ (fun _ _ => .ok "failed") (fun _ => .ok "failed")
          [⟨"ActionX", 80, none⟩]
          [[("MAC Address", "AA"), ("IPs", "10.0.0.2"), ("Hostnames", "h"),
            ("Alive", "1"), ("Ports", "80"),
            ("ActionX", "failed_20240101_000000")]]) := by
  decide

/-- C5 amended: on a table whose stored statuses are well formed (empty,
or of the `success_<ts>` / `no_creds_...` / `failed_<n>_<ts>` shapes the
scheduler itself writes — this excludes the legacy `failed_<ts>` statuses
on which the strategies diverge via `_host_fully_exhausted`), with
pairwise distinct action names that avoid the fixed column keys, the
three strategies succeed, produce the same final table, and execute the
same multiset of (host index, action name) pairs, differing only in
order and grouping. -/
theorem C5_strategy_equivalence (cfg : Config) (now : DT) (oracle : ExecOracle)
    (vOracle : String → ExecResult) (acts : List ActionDesc) (t : Table)
    (hnd : (acts.map ActionDesc.action_name).Nodup)
    (hAlive : ∀ a ∈ acts, a.action_name ≠ "Alive")
    (hIPs : ∀ a ∈ acts, a.action_name ≠ "IPs")
    (hPorts : ∀ a ∈ acts, a.action_name ≠ "Ports")
    (hwf : ∀ row ∈ t, ∀ a ∈ acts, WFStatus (rowGet row a.action_name)) :
    ∃ t2 eS eH eP,
      spreadCycle cfg now oracle vOracle acts t = .ok (t2, eS) ∧
      process_per_host cfg now oracle vOracle acts 0 t = .ok (t2, eH) ∧
      process_per_phase cfg now oracle vOracle acts t = .ok (t2, eP) ∧
      eS.Perm eH ∧ eP.Perm eH := by
  obtain ⟨t1, eA, t2, eV, eH, hA, hV, hH, hperm1⟩ :=
    spread_eq_perHost cfg now oracle vOracle acts hnd hAlive t 0 hwf
  obtain ⟨tA, eA2, tB, eB2, tC, eC2, eH2, hp1, hp2, hp3, hH2, hperm2⟩ :=
    perPhase_eq_perHost cfg now oracle vOracle acts hnd hAlive hIPs hPorts t 0 hwf
  rw [hH] at hH2
  injection hH2 with hH2e
  rw [Prod.mk.injEq] at hH2e
  obtain ⟨he1, he2⟩ := hH2e
  subst he1
  subst he2
  refine ⟨t2, eA ++ eV, eH, (eA2 ++ eB2) ++ eC2, ?_, hH, ?_, hperm1, hperm2⟩
  · unfold spreadCycle
    rw [hA, except_bind_ok]
    dsimp only
    rw [hV]
  · unfold process_per_phase
    rw [hp1, except_bind_ok]
    dsimp only
    rw [hp2, except_bind_ok]
    dsimp only
    rw [hp3]

/-- C5 witness: the amended equivalence at a concrete one-host table with
a well-formed (empty) stored status: all three strategies succeed and
agree. -/
theorem C5_witness :
    ∃ t2 eS eH eP,
      spreadCycle ⟨false, 0, true, 0, 3, true, false, false, none⟩
        ⟨2024, 2, 1, 0, 0, 0⟩ (fun _ _ => .ok "failed") (fun _ => .ok "failed")
        [⟨"ActionX", 80, none⟩]
        [[("MAC Address", "AA"), ("IPs", "10.0.0.2"), ("Hostnames", "h"),
          ("Alive", "1"), ("Ports", "80")]] = .ok (t2, eS) ∧
      process_per_host ⟨false, 0, true, 0, 3, true, false, false, none⟩
        ⟨2024, 2, 1, 0, 0, 0⟩ (fun _ _ => .ok "failed") (fun _ => .ok "failed")
        [⟨"ActionX", 80, none⟩] 0
        [[("MAC Address", "AA"), ("IPs", "10.0.0.2"), ("Hostnames", "h"),
          ("Alive", "1"), ("Ports", "80")]] = .ok (t2, eH) ∧
      process_per_phase ⟨false, 0, true, 0, 3, true, false, false, none⟩
        ⟨2024, 2, 1, 0, 0, 0⟩ (fun _ _ => .ok "failed") (fun _ => .ok "failed")
        [⟨"ActionX", 80, none⟩]
        [[("MAC Address", "AA"), ("IPs", "10.0.0.2"), ("Hostnames", "h"),
          ("Alive", "1"), ("Ports", "80")]] = .ok (t2, eP) ∧
      eS.Perm eH ∧ eP.Perm eH :=
  C5_strategy_equivalence ⟨false, 0, true, 0, 3, true, false, false, none⟩
    ⟨2024, 2, 1, 0, 0, 0⟩ (fun _ _ => .ok "failed") (fun _ => .ok "failed")
    [⟨"ActionX", 80, none⟩]
    [[("MAC Address", "AA"), ("IPs", "10.0.0.2"), ("Hostnames", "h"),
      ("Alive", "1"), ("Ports", "80")]]
    (by decide) (by decide) (by decide) (by decide)
    (by
      intro row hrow a ha
      simp only [List.mem_singleton] at hrow ha
      subst hrow
      subst ha
      exact Or.inl rfl)

end Bjorn

